import Mathlib

/-!
Bluecherry recording daemon: storage table, eviction, reconciler, motion detector.

A shallow embedding of `server/bc-server.c` and `lib/motion.c`.

Conventions of the embedding:

* a value computed in C `float` or `double` is a `cfloat`: a finite rational, an
  infinity or not-a-number; arithmetic rounds to nearest (ties to even) in the
  format of the C expression, and comparisons are the IEEE ones (false on
  not-a-number); zero has no sign;
* the thresholds `min_thresh` and `max_thresh`, read from the database, are
  rationals (`Rat`);
* C `int` values are `Int` (no arithmetic of the modelled functions comes near the
  range of `int`); byte pixels are `Nat`;
* a `NULL` pointer is `none`;
* everything outside the two source files (the database, the filesystem, the
  threads, the decoder) is an explicit argument of the function that calls it;
* an out-of-bounds array access is undefined in C and is `none` here.
-/

namespace Bluecherry

/-! ## Storage location table (`bc-server.c`) -/

/-- The constant `MAX_STOR_LOCS`: the number of slots of the array `media_stor`. -/
def MAX_STOR_LOCS : Nat := 10

/-- The C `struct bc_storage`. -/
structure bc_storage where
  path : String
  min_thresh : Rat
  max_thresh : Rat
deriving DecidableEq

/-- One row of `SELECT * from Storage ORDER BY priority ASC`, as read by
`bc_check_globals`: `path` is `none` when `bc_db_get_val` returns `NULL`. -/
structure storage_row where
  path : Option String
  max_thresh : Rat
  min_thresh : Rat
deriving DecidableEq

/-- The array `media_stor` after `memset(media_stor, 0, sizeof(media_stor))`. -/
def media_stor_zero : List bc_storage :=
  List.replicate MAX_STOR_LOCS { path := "", min_thresh := 0, max_thresh := 0 }

/-- The `while (!bc_db_fetch_row(dbres))` loop of `bc_check_globals`, with the array
and the counter `i` as state. The source has no bound check on `i`: a store to
`media_stor[i]` with `i >= MAX_STOR_LOCS` is out of bounds and gives `none`. -/
def bc_check_globals_rows :
    List storage_row → List bc_storage → Nat → Option (List bc_storage × Nat)
  | [], tbl, i => some (tbl, i)
  | row :: rest, tbl, i =>
    match row.path with
    | none => bc_check_globals_rows rest tbl i
    | some path =>
      if path = "" ∨ row.max_thresh ≤ 0 ∨ row.min_thresh ≤ 0 then
        bc_check_globals_rows rest tbl i
      else if i < MAX_STOR_LOCS then
        bc_check_globals_rows rest
          (tbl.set i { path := path, min_thresh := row.min_thresh,
                       max_thresh := row.max_thresh }) (i + 1)
      else none

/-- The storage half of `bc_check_globals`: the new contents of `media_stor`.
`dbres` is the result of the Storage query (`none` for `NULL`). The schedule half
of the function only writes `global_sched` and is not part of this development. -/
def bc_check_globals (dbres : Option (List storage_row)) : Option (List bc_storage) :=
  let filled :=
    match dbres with
    | none => some (media_stor_zero, 0)
    | some rows => bc_check_globals_rows rows media_stor_zero 0
  match filled with
  | none => none
  | some (tbl, i) =>
    if i = 0 then
      some (tbl.set 0 { path := "/var/lib/bluecherry/recordings",
                        min_thresh := 90, max_thresh := 95 })
    else some tbl

/-- The locations visited by the loops
`for (i = 0; i < MAX_STOR_LOCS && media_stor[i].max_thresh; i++)`. -/
def stor_locs (media_stor : List bc_storage) : List bc_storage :=
  (media_stor.take MAX_STOR_LOCS).takeWhile (fun s => decide (s.max_thresh ≠ 0))

/-! ### C floating point -/

/-- A value of the C types `float` and `double`: not-a-number, minus infinity,
plus infinity, or a finite number. -/
inductive cfloat where
  | nan : cfloat
  | ninf : cfloat
  | pinf : cfloat
  | fin (q : Rat) : cfloat
deriving DecidableEq

/-- The C comparison `a <= b` (false when either side is not-a-number). -/
def cfloat.ble : cfloat → cfloat → Bool
  | .nan, _ => false
  | _, .nan => false
  | .ninf, _ => true
  | _, .pinf => true
  | .fin a, .fin b => decide (a ≤ b)
  | _, _ => false

/-- The C comparison `a < b` (false when either side is not-a-number). -/
def cfloat.blt : cfloat → cfloat → Bool
  | .nan, _ => false
  | _, .nan => false
  | .ninf, .ninf => false
  | .ninf, _ => true
  | .pinf, _ => false
  | .fin _, .ninf => false
  | .fin _, .pinf => true
  | .fin a, .fin b => decide (a < b)

instance : LE cfloat := ⟨fun a b => cfloat.ble a b = true⟩

instance : LT cfloat := ⟨fun a b => cfloat.blt a b = true⟩

instance (a b : cfloat) : Decidable (a ≤ b) :=
  inferInstanceAs (Decidable (cfloat.ble a b = true))

instance (a b : cfloat) : Decidable (a < b) :=
  inferInstanceAs (Decidable (cfloat.blt a b = true))

instance : Coe Rat cfloat := ⟨cfloat.fin⟩

instance (n : Nat) : OfNat cfloat n := ⟨cfloat.fin n⟩

/-- The integer nearest to `N / D`, ties to the even one (`D > 0`). -/
def round_half_even (N D : Nat) : Nat :=
  if 2 * (N % D) < D then N / D
  else if D < 2 * (N % D) then N / D + 1
  else if (N / D) % 2 = 0 then N / D
  else N / D + 1

/-- The number of halvings that bring `n` below 2, at most `fuel` of them. -/
def log2_halvings : Nat → Nat → Nat
  | 0, _ => 0
  | fuel + 1, n => if n < 2 then 0 else log2_halvings fuel (n / 2) + 1

/-- The floor of the base-2 logarithm of `n > 0`. -/
def log2_nat (n : Nat) : Nat := log2_halvings n n

/-- The floor of the base-2 logarithm of `N / D` (`N > 0`, `D > 0`). -/
def floor_log2 (N D : Nat) : Int :=
  let k : Int := (log2_nat N : Int) - (log2_nat D : Int)
  if 0 ≤ k then (if D * 2 ^ k.toNat ≤ N then k else k - 1)
  else (if D ≤ N * 2 ^ (-k).toNat then k else k - 1)

/-- IEEE 754 rounding of a rational to the binary format with `p` significand
bits and exponents `emin .. emax`: the nearest representable number, ties to
even, subnormals included; an infinity past the largest finite number. -/
def ieee_round (p : Nat) (emin emax : Int) (q : Rat) : cfloat :=
  if q = 0 then cfloat.fin 0
  else
    let N := q.num.natAbs
    let D := q.den
    let s : Int := max (floor_log2 N D) emin - ((p : Int) - 1)
    let r : Rat :=
      if 0 ≤ s then ((round_half_even N (D * 2 ^ s.toNat) * 2 ^ s.toNat : Nat) : Rat)
      else mkRat (round_half_even (N * 2 ^ (-s).toNat) D) (2 ^ (-s).toNat)
    if ((2 ^ (emax + 1).toNat : Nat) : Rat) ≤ r then
      (if q < 0 then cfloat.ninf else cfloat.pinf)
    else cfloat.fin (if q < 0 then -r else r)

/-- Rounding to C `float` (binary32). -/
def to_float (q : Rat) : cfloat := ieee_round 24 (-126) 127 q

/-- Rounding to C `double` (binary64). -/
def to_double (q : Rat) : cfloat := ieee_round 53 (-1022) 1023 q

/-- The C division `a / b`, rounded by `rnd`. -/
def cfloat.div (rnd : Rat → cfloat) : cfloat → cfloat → cfloat
  | .nan, _ => .nan
  | _, .nan => .nan
  | .fin a, .fin b =>
    if b = 0 then (if a = 0 then .nan else if 0 < a then .pinf else .ninf) else rnd (a / b)
  | .fin _, _ => .fin 0
  | .pinf, .fin b => if 0 ≤ b then .pinf else .ninf
  | .ninf, .fin b => if 0 ≤ b then .ninf else .pinf
  | _, _ => .nan

/-- The C multiplication `a * b`, rounded by `rnd`. -/
def cfloat.mul (rnd : Rat → cfloat) : cfloat → cfloat → cfloat
  | .nan, _ => .nan
  | _, .nan => .nan
  | .fin a, .fin b => rnd (a * b)
  | .fin a, .pinf => if a = 0 then .nan else if 0 < a then .pinf else .ninf
  | .fin a, .ninf => if a = 0 then .nan else if 0 < a then .ninf else .pinf
  | .pinf, .fin b => if b = 0 then .nan else if 0 < b then .pinf else .ninf
  | .ninf, .fin b => if b = 0 then .nan else if 0 < b then .ninf else .pinf
  | .pinf, .pinf => .pinf
  | .ninf, .ninf => .pinf
  | _, _ => .ninf

/-- The C subtraction `a - b`, rounded by `rnd`. -/
def cfloat.sub (rnd : Rat → cfloat) : cfloat → cfloat → cfloat
  | .nan, _ => .nan
  | _, .nan => .nan
  | .fin a, .fin b => rnd (a - b)
  | .fin _, .pinf => .ninf
  | .fin _, .ninf => .pinf
  | .pinf, .pinf => .nan
  | .ninf, .ninf => .nan
  | .pinf, _ => .pinf
  | .ninf, _ => .ninf

/-- A C conversion between floating types, rounded by `rnd`. -/
def cfloat.cast (rnd : Rat → cfloat) : cfloat → cfloat
  | .fin a => rnd a
  | x => x

/-! ### Usage of a location -/

/-- The two fields of `struct statvfs` that `storage_used` reads. -/
structure statvfs_t where
  f_bavail : Nat
  f_blocks : Nat
deriving DecidableEq

/-- The function `storage_used`. `statvfs` is the filesystem call on a path, `none`
when it fails. The expression
`100.0 - ((float)((float)st.f_bavail / (float)st.f_blocks) * 100)` is evaluated as
C does with IEEE 754 arithmetic and no excess precision: the two casts, the
division and the multiplication in `float`, the subtraction in `double`, and
the `float` return type rounds the result. With `f_blocks = 0` the value is
not-a-number (`f_bavail = 0`) or minus infinity. -/
def storage_used (statvfs : String → Option statvfs_t) (stor : bc_storage) : cfloat :=
  match statvfs stor.path with
  | none => cfloat.fin (-1)
  | some st =>
    cfloat.cast to_float
      (cfloat.sub to_double (cfloat.fin 100)
        (cfloat.mul to_float
          (cfloat.div to_float (to_float st.f_bavail) (to_float st.f_blocks))
          (cfloat.fin 100)))

/-- The function `storage_full`. -/
def storage_full (statvfs : String → Option statvfs_t) (stor : bc_storage) : Bool :=
  if storage_used statvfs stor ≥ stor.max_thresh then true else false

/-- The scan loop of `bc_get_media_loc`: the contents of the buffer `stor` after the
loop (empty when no location was copied). -/
def bc_get_media_loc_scan (statvfs : String → Option statvfs_t) :
    List bc_storage → String
  | [] => ""
  | s :: rest =>
    if !storage_full statvfs s then s.path else bc_get_media_loc_scan statvfs rest

/-- The function `bc_get_media_loc`: the string left in the caller's buffer. -/
def bc_get_media_loc (statvfs : String → Option statvfs_t)
    (media_stor : List bc_storage) : String :=
  let stor := bc_get_media_loc_scan statvfs (stor_locs media_stor)
  if stor = "" then
    match media_stor with
    | [] => ""
    | s0 :: _ => s0.path
  else stor

/-! ## Eviction (`bc_clear_media_one`, `bc_check_media`) -/

/-- One row of the `Media` table (`end_ts` is the column `end`). -/
structure media_row where
  id : Int
  filepath : Option String
  size : Int
  start : Int
  end_ts : Int
  archive : Int
deriving DecidableEq

/-- The collaborators of the eviction code, over a filesystem state `FS`:
`statvfs` and `unlink` are the system calls, `sql_like` is the `LIKE` operator of
the database, and `get_table_null` tells whether `bc_db_get_table` answers the
eviction query with `NULL` (given the table contents and the location path). -/
structure media_env (FS : Type) where
  statvfs : FS → String → Option statvfs_t
  unlink : FS → String → FS
  sql_like : String → String → Bool
  get_table_null : List media_row → String → Bool

/-- What eviction reads and writes: the filesystem, the `Media` table, and two
logs: the result rows whose file was unlinked and whose metadata was cleared, in
order, and the number of `bc_event_sys(BC_EVENT_L_ALRM, BC_EVENT_SYS_T_DISK)`
events. -/
structure media_world (FS : Type) where
  fs : FS
  Media : List media_row
  removed : List media_row
  alarms : Nat

/-- The `WHERE` clause of the eviction query:
`archive=0 AND end!=0 AND size>0 AND filepath LIKE '<path>%'`. -/
def media_eligible (like : String → String → Bool) (path : String) (m : media_row) : Bool :=
  decide (m.archive = 0) && decide (m.end_ts ≠ 0) && decide (m.size > 0) &&
    (match m.filepath with
     | none => false
     | some fp => like fp (path ++ "%"))

/-- The rows of the eviction query, `... ORDER BY start ASC`. -/
def media_select (like : String → String → Bool) (path : String)
    (tbl : List media_row) : List media_row :=
  (tbl.filter (media_eligible like path)).insertionSort (fun a b => a.start ≤ b.start)

/-- The statement `UPDATE Media SET filepath='',size=0 WHERE id=<id>`. -/
def media_clear_row (id : Int) (tbl : List media_row) : List media_row :=
  tbl.map (fun m => if m.id = id then { m with filepath := some "", size := 0 } else m)

/-- The locals of `bc_clear_media_one` when it returns: the world, the last value
of `used`, and the rows of the result set that were neither skipped nor removed
(a row fetched by the loop guard that then fails on `used` is among them). -/
structure clear_state (FS : Type) where
  w : media_world FS
  used : cfloat
  left : List media_row

/-- The loop `while (!bc_db_fetch_row(dbres) && used > stor->min_thresh)` of
`bc_clear_media_one`, over the rows still to fetch. -/
def bc_clear_media_loop {FS : Type} (env : media_env FS) (stor : bc_storage) :
    List media_row → cfloat → media_world FS → clear_state FS
  | [], used, w => { w := w, used := used, left := [] }
  | row :: rest, used, w =>
    if used > stor.min_thresh then
      match row.filepath with
      | none => bc_clear_media_loop env stor rest used w
      | some filepath =>
        if filepath = "" then bc_clear_media_loop env stor rest used w
        else
          let w1 : media_world FS :=
            { w with fs := env.unlink w.fs filepath,
                     Media := media_clear_row row.id w.Media,
                     removed := w.removed ++ [row] }
          let used1 := storage_used (env.statvfs w1.fs) stor
          if used1 < 0 then { w := w1, used := used1, left := rest }
          else bc_clear_media_loop env stor rest used1 w1
    else { w := w, used := used, left := row :: rest }

/-- The function `bc_clear_media_one`. -/
def bc_clear_media_one {FS : Type} (env : media_env FS) (stor : bc_storage)
    (w : media_world FS) : clear_state FS :=
  let used := storage_used (env.statvfs w.fs) stor
  if used < stor.max_thresh then { w := w, used := used, left := [] }
  else if env.get_table_null w.Media stor.path then
    { w := { w with alarms := w.alarms + 1 }, used := used, left := [] }
  else
    let st := bc_clear_media_loop env stor (media_select env.sql_like stor.path w.Media) used w
    if st.used < 0 then st
    else if st.used ≥ stor.min_thresh then
      { st with w := { st.w with alarms := st.w.alarms + 1 } }
    else st

/-- The mutable configuration `bc_rec->cfg` of a worker (the fields the server
file reads). -/
structure bc_device_config where
  name : String
  debug_level : Int
deriving DecidableEq

/-- The C `struct bc_record`: one worker. `thread_should_die` is the stop reason,
`none` while no stop was requested. -/
structure bc_record where
  id : Int
  cfg : bc_device_config
  thread_should_die : Option String
deriving DecidableEq

/-- One row of `SELECT * from Devices LEFT JOIN AvailableSources USING (device)`:
`protocol` is `none` when `bc_db_get_val` returns `NULL`. -/
structure device_row where
  id : Int
  protocol : Option String
  card_id : Int
  cfg : bc_device_config
deriving DecidableEq

/-- The live set: the list `bc_rec_list` and the counter `cur_threads`. -/
structure server_state where
  bc_rec_list : List bc_record
  cur_threads : Int
deriving DecidableEq

/-- The state at program start: `BC_DECLARE_LIST(bc_rec_list)` and the zeroed
`static int cur_threads`. -/
def server_init : server_state := { bc_rec_list := [], cur_threads := 0 }

/-- The function `bc_record_exists`. -/
def bc_record_exists (id : Int) : List bc_record → Option bc_record
  | [] => none
  | bc_rec :: rest => if bc_rec.id = id then some bc_rec else bc_record_exists id rest

/-- Modelled from the spec: `bc_record_update_cfg` is not in the two source
files; it pushes the updated descriptor into the running worker (the identity
and the stop slot of the worker are left alone, the thread is not restarted). -/
def bc_record_update_cfg (bc_rec : bc_record) (row : device_row) : bc_record :=
  { bc_rec with cfg := row.cfg }

/-- The call `bc_record_update_cfg(bc_rec, dbres)` through the pointer that
`bc_record_exists(id)` returned: the first record with that id is updated in
place. -/
def bc_rec_list_update (id : Int) (row : device_row) : List bc_record → List bc_record
  | [] => []
  | bc_rec :: rest =>
    if bc_rec.id = id then bc_record_update_cfg bc_rec row :: rest
    else bc_rec :: bc_rec_list_update id row rest

/-- Modelled from the spec: `bc_alloc_record` is not in the two source files; it
constructs a worker for the device and starts its thread, or fails and returns
`NULL`. `alloc_ok` says for which rows the construction succeeds. -/
def bc_alloc_record (alloc_ok : device_row → Bool) (id : Int) (row : device_row) :
    Option bc_record :=
  if alloc_ok row then some { id := id, cfg := row.cfg, thread_should_die := none }
  else none

/-- The body of the `while (!bc_db_fetch_row(dbres))` loop of `bc_check_db` for
one row: the new state and the ids of the workers started (none or one).
`bc_list_add` is not in the two source files; it is taken to link the new record
at the head of `bc_rec_list` (the spec leaves the insertion order open). -/
def bc_check_db_row (max_threads record_id : Int) (alloc_ok : device_row → Bool)
    (st : server_state) (row : device_row) : server_state × List Int :=
  match row.protocol with
  | none => (st, [])
  | some proto =>
    if row.id < 0 then (st, [])
    else
      match bc_record_exists row.id st.bc_rec_list with
      | some _ =>
        ({ st with bc_rec_list := bc_rec_list_update row.id row st.bc_rec_list }, [])
      | none =>
        if record_id ≥ 0 ∧ row.id ≠ record_id then (st, [])
        else if max_threads ≠ 0 ∧ st.cur_threads ≥ max_threads then (st, [])
        else if proto.toLower = "V4L2".toLower ∧ row.card_id < 0 then (st, [])
        else
          match bc_alloc_record alloc_ok row.id row with
          | none => (st, [])
          | some bc_rec =>
            ({ bc_rec_list := bc_rec :: st.bc_rec_list,
               cur_threads := st.cur_threads + 1 }, [row.id])

/-- The row loop of `bc_check_db`. -/
def bc_check_db_rows (max_threads record_id : Int) (alloc_ok : device_row → Bool) :
    List device_row → server_state → server_state × List Int
  | [], st => (st, [])
  | row :: rest, st =>
    let step := bc_check_db_row max_threads record_id alloc_ok st row
    let tail := bc_check_db_rows max_threads record_id alloc_ok rest step.1
    (tail.1, step.2 ++ tail.2)

/-- The function `bc_check_db`: the new live set and the ids of the workers
started by this pass, in the order they were started. `dbres` is the result of
the device query (`none` for `NULL`). -/
def bc_check_db (max_threads record_id : Int) (alloc_ok : device_row → Bool)
    (dbres : Option (List device_row)) (st : server_state) : server_state × List Int :=
  match dbres with
  | none => (st, [])
  | some rows => bc_check_db_rows max_threads record_id alloc_ok rows st

/-- The loop of `bc_check_threads`. `tryjoin` is `pthread_tryjoin_np` on the
thread of a record: `0` when the thread has terminated and was joined. -/
def bc_check_threads_loop (tryjoin : bc_record → Int) :
    List bc_record → Int → List bc_record × Int
  | [], cur => ([], cur)
  | bc_rec :: rest, cur =>
    if tryjoin bc_rec ≠ 0 then
      let tail := bc_check_threads_loop tryjoin rest cur
      (bc_rec :: tail.1, tail.2)
    else bc_check_threads_loop tryjoin rest (cur - 1)

/-- The function `bc_check_threads`. -/
def bc_check_threads (tryjoin : bc_record → Int) (st : server_state) : server_state :=
  if st.bc_rec_list.isEmpty then st
  else
    let r := bc_check_threads_loop tryjoin st.bc_rec_list st.cur_threads
    { bc_rec_list := r.1, cur_threads := r.2 }

/-- The second loop of `bc_stop_threads`: every record is joined (`pthread_join`
returns when the thread has ended), unlinked from the list and freed. -/
def bc_stop_threads_join : List bc_record → Int → List bc_record × Int
  | [], cur => ([], cur)
  | _ :: rest, cur => bc_stop_threads_join rest (cur - 1)

/-- The function `bc_stop_threads`. -/
def bc_stop_threads (st : server_state) : server_state :=
  if st.bc_rec_list.isEmpty then st
  else
    let signalled :=
      st.bc_rec_list.map (fun bc_rec => { bc_rec with thread_should_die := some "Shutting down" })
    let r := bc_stop_threads_join signalled st.cur_threads
    { bc_rec_list := r.1, cur_threads := r.2 }

/-! ## Motion detector (`lib/motion.c`) -/

/-- The device types that `bc_motion_is_detected` tells apart. -/
inductive bc_device_type where
  | BC_DEVICE_V4L2
  | BC_DEVICE_RTP
deriving DecidableEq

/-- A `PIX_FMT_GRAY8` picture: the bytes at `data[0]` and `linesize[0]`. -/
structure gray_frame where
  data : List Nat
  linesize : Nat
deriving DecidableEq

/-- The C `struct bc_motion_data`. `convContext` is the cached conversion
context, known by the width and height it was made for. -/
structure bc_motion_data where
  enabled : Int
  convContext : Option (Nat × Nat)
  refFrame : Option gray_frame
deriving DecidableEq

/-- The fields of `struct bc_handle` that `motion.c` uses: `v4l2_motion` is the
test `cam_caps & BC_CAM_CAP_V4L2_MOTION`. -/
structure bc_handle where
  v4l2_motion : Bool
  type : bc_device_type
  motion_data : bc_motion_data
deriving DecidableEq

/-- The two flag tests made on the buffer that `bc_buf_v4l2` returns:
`flags & V4L2_BUF_FLAG_MOTION_ON` and `flags & V4L2_BUF_FLAG_MOTION_DETECTED`. -/
structure v4l2_buffer where
  motion_on : Bool
  motion_detected : Bool
deriving DecidableEq

/-- What the decoder gives to one call of `bc_motion_is_detected`: the return
value `r` of `rtp_device_decode_video`, the codec width and height, and the
picture after `sws_scale` to `PIX_FMT_GRAY8`. -/
structure decoded_video where
  r : Int
  width : Nat
  height : Nat
  frame : gray_frame
deriving DecidableEq

/-- The function `bc_set_motion`: the return value and the handle afterwards.
`ioctl_ret` is what `ioctl(VIDIOC_S_CTRL)` returns if it is called; `on_` is the
parameter `on`. -/
def bc_set_motion (ioctl_ret : Int) (bc : bc_handle) (on_ : Int) : Int × bc_handle :=
  let r : Int × bc_handle :=
    if bc.v4l2_motion then (ioctl_ret, bc)
    else if on_ = 0 then
      (0, { bc with motion_data :=
              { bc.motion_data with convContext := none, refFrame := none } })
    else (0, bc)
  if r.1 = 0 then (r.1, { r.2 with motion_data := { r.2.motion_data with enabled := on_ } })
  else r

/-- The function `bc_motion_is_on`. `vb` is what `bc_buf_v4l2` returns. -/
def bc_motion_is_on (vb : Option v4l2_buffer) (bc : bc_handle) : Int :=
  if bc.motion_data.enabled = 0 then 0
  else if bc.v4l2_motion then
    match vb with
    | none => 0
    | some b => if b.motion_on then 1 else 0
  else 1

/-- The pixel loop of `bc_motion_is_detected`: `n` bytes of the reference frame
and of the current frame are compared, and the final `changed` is returned. A read
past the end of either buffer gives `none`. -/
def motion_changed : Nat → List Nat → List Nat → Option Nat
  | 0, _, _ => some 0
  | n + 1, r :: rs, c :: cs =>
    match motion_changed n rs cs with
    | none => none
    | some changed =>
      if Int.natAbs ((r : Int) - (c : Int)) > 20 then some (changed + 1) else some changed
  | _ + 1, _, _ => none

/-- The function `bc_motion_is_detected`: the return value and the handle
afterwards (`none` when the pixel loop reads out of bounds). -/
def bc_motion_is_detected (vb : Option v4l2_buffer) (dec : decoded_video)
    (bc : bc_handle) : Option (Int × bc_handle) :=
  if bc_motion_is_on vb bc = 0 then some (0, bc)
  else if bc.v4l2_motion then
    match vb with
    | none => some (0, bc)
    | some b => some (if b.motion_detected then 1 else 0, bc)
  else if bc.type = bc_device_type.BC_DEVICE_RTP then
    if dec.r < 0 then some (0, bc)
    else if dec.r = 0 then some (0, bc)
    else
      let md : bc_motion_data :=
        { bc.motion_data with convContext := some (dec.width, dec.height) }
      match md.refFrame with
      | some ref =>
        match motion_changed (dec.frame.linesize * dec.height) ref.data dec.frame.data with
        | none => none
        | some changed =>
          let ret : Int := if changed ≥ dec.height * dec.width / 6 then 1 else 0
          some (ret, { bc with motion_data := { md with refFrame := some dec.frame } })
      | none => some (0, { bc with motion_data := { md with refFrame := some dec.frame } })
  else some (0, bc)

/-! ## Specification-side definitions -/

/-- The all-zero slot left by `memset`. -/
def stor_zero : bc_storage := { path := "", min_thresh := 0, max_thresh := 0 }

/-- The location that `bc_check_globals` stores for a row, `none` for a row that
its guard `!path || !strlen(path) || max_thresh <= 0 || min_thresh <= 0` skips. -/
def storage_row_loc (row : storage_row) : Option bc_storage :=
  match row.path with
  | none => none
  | some path =>
    if path = "" ∨ row.max_thresh ≤ 0 ∨ row.min_thresh ≤ 0 then none
    else some { path := path, min_thresh := row.min_thresh, max_thresh := row.max_thresh }

/-- The locations of the rows that pass the guard of `bc_check_globals`. -/
def storage_valid_locs (dbres : Option (List storage_row)) : List bc_storage :=
  match dbres with
  | none => []
  | some rows => rows.filterMap storage_row_loc

/-- The hard-coded fallback location of `bc_check_globals`. -/
def stor_default : bc_storage :=
  { path := "/var/lib/bluecherry/recordings", min_thresh := 90, max_thresh := 95 }

/-- The array `media_stor` holding the locations `locs` in its first slots and
zeroed slots after them. -/
def stor_table (locs : List bc_storage) : List bc_storage :=
  locs ++ List.replicate (MAX_STOR_LOCS - locs.length) stor_zero

/-- The locations that `bc_check_globals` leaves in the table: the valid rows, or
the fallback when there is none. -/
def storage_table_locs (dbres : Option (List storage_row)) : List bc_storage :=
  if storage_valid_locs dbres = [] then [stor_default] else storage_valid_locs dbres

/-- Example Storage rows: one valid row and one row without a path. -/
def ex_storage_rows : List storage_row :=
  [{ path := some "/mnt/a", max_thresh := 90, min_thresh := 80 },
   { path := none, max_thresh := 90, min_thresh := 80 }]

/-- Example filesystem: `/mnt/a` is 95% full, `/mnt/b` is 50% full, and `statvfs`
fails on every other path. -/
def ex_statvfs : String → Option statvfs_t := fun path =>
  if path = "/mnt/a" then some { f_bavail := 5, f_blocks := 100 }
  else if path = "/mnt/b" then some { f_bavail := 50, f_blocks := 100 }
  else none

/-- Example filesystem: `statvfs` succeeds on `/mnt/a` and reports a filesystem
of zero blocks; `/mnt/b` is 50% full. -/
def ex_statvfs_zero : String → Option statvfs_t := fun path =>
  if path = "/mnt/a" then some { f_bavail := 0, f_blocks := 0 }
  else if path = "/mnt/b" then some { f_bavail := 50, f_blocks := 100 }
  else none

/-- Example Storage rows: location A (min 80, max 90) and location B (min 70,
max 85), in this priority order. -/
def ex_rows_AB : List storage_row :=
  [{ path := some "/mnt/a", max_thresh := 90, min_thresh := 80 },
   { path := some "/mnt/b", max_thresh := 85, min_thresh := 70 }]

/-- The table that `bc_check_globals` builds from `ex_rows_AB`. -/
def ex_stor_AB : List bc_storage :=
  stor_table [{ path := "/mnt/a", min_thresh := 80, max_thresh := 90 },
              { path := "/mnt/b", min_thresh := 70, max_thresh := 85 }]

/-- Location A of the examples: min 80, max 90. -/
def ex_stor_A : bc_storage := { path := "/mnt/a", min_thresh := 80, max_thresh := 90 }

/-- Location B of the examples: min 70, max 85. -/
def ex_stor_B : bc_storage := { path := "/mnt/b", min_thresh := 70, max_thresh := 85 }

/-- Example `LIKE` for a pattern `<text>%`: the text is an initial part of the
file path. -/
def ex_like : String → String → Bool := fun fp pat =>
  (pat.data.dropLast).isPrefixOf fp.data

/-- Example collaborators. The filesystem state is the number of files unlinked so
far; every unlink frees 15% of `/mnt/a`, which starts 95% full, and `/mnt/b`
stays 50% full. -/
def ex_env : media_env Nat :=
  { statvfs := fun n path =>
      if path = "/mnt/a" then some { f_bavail := 5 + 15 * n, f_blocks := 100 }
      else if path = "/mnt/b" then some { f_bavail := 50, f_blocks := 100 }
      else none
    unlink := fun n _ => n + 1
    sql_like := ex_like
    get_table_null := fun _ _ => false }

/-- Example `Media` rows under `/mnt/a`: three closed records, one archived
record older than all of them and one record still open. -/
def ex_rec1 : media_row :=
  { id := 1, filepath := some "/mnt/a/1.mkv", size := 10, start := 100, end_ts := 200,
    archive := 0 }

/-- Second closed record. -/
def ex_rec2 : media_row :=
  { id := 2, filepath := some "/mnt/a/2.mkv", size := 10, start := 300, end_ts := 400,
    archive := 0 }

/-- Third closed record. -/
def ex_rec3 : media_row :=
  { id := 3, filepath := some "/mnt/a/3.mkv", size := 10, start := 500, end_ts := 600,
    archive := 0 }

/-- Archived record, the oldest of the table. -/
def ex_rec4 : media_row :=
  { id := 4, filepath := some "/mnt/a/4.mkv", size := 10, start := 50, end_ts := 90,
    archive := 1 }

/-- Record still open (`end = 0`). -/
def ex_rec5 : media_row :=
  { id := 5, filepath := some "/mnt/a/5.mkv", size := 10, start := 60, end_ts := 0,
    archive := 0 }

/-- Example world: nothing unlinked yet, the five records, no alarm. -/
def ex_world : media_world Nat :=
  { fs := 0, Media := [ex_rec3, ex_rec4, ex_rec1, ex_rec5, ex_rec2], removed := [], alarms := 0 }

/-- The device ids of the live set, in list order. -/
def rec_ids (l : List bc_record) : List Int := l.map (fun bc_rec => bc_rec.id)

/-- The stop reasons of the live set, in list order. -/
def rec_flags (l : List bc_record) : List (Option String) :=
  l.map (fun bc_rec => bc_rec.thread_should_die)

/-- Well-formedness of the live set: the counter equals the number of entries
and no two entries have the same device id. -/
def live_wf (st : server_state) : Prop :=
  st.cur_threads = st.bc_rec_list.length ∧ (rec_ids st.bc_rec_list).Nodup

instance (st : server_state) : Decidable (live_wf st) := by
  unfold live_wf
  infer_instance

/-- A device row passes the checks of `bc_check_db` that depend on the row alone:
the id is not negative, the protocol is present, the `record_id` filter lets it
through, and a V4L2 device has its card detected. -/
def row_admissible (record_id : Int) (row : device_row) : Bool :=
  match row.protocol with
  | none => false
  | some proto =>
    decide (¬ row.id < 0) && decide (¬ (record_id ≥ 0 ∧ row.id ≠ record_id)) &&
      decide (¬ (proto.toLower = "V4L2".toLower ∧ row.card_id < 0))

/-- The condition under which the loop body of `bc_check_db` starts a worker for
the row: the row is admissible, its id is not live, the cap is not reached and
the construction succeeds. -/
def row_starts (max_threads record_id : Int) (alloc_ok : device_row → Bool)
    (st : server_state) (row : device_row) : Prop :=
  row_admissible record_id row = true ∧ row.id ∉ rec_ids st.bc_rec_list ∧
    ¬ (max_threads ≠ 0 ∧ st.cur_threads ≥ max_threads) ∧ alloc_ok row = true

instance (max_threads record_id : Int) (alloc_ok : device_row → Bool)
    (st : server_state) (row : device_row) :
    Decidable (row_starts max_threads record_id alloc_ok st row) := by
  unfold row_starts
  infer_instance

/-- The ids of the admissible rows that are not in `live`, each once, in the
order of their first admissible row. -/
def new_ids (record_id : Int) : List Int → List device_row → List Int
  | _, [] => []
  | live, row :: rest =>
    if row_admissible record_id row = true ∧ row.id ∉ live then
      row.id :: new_ids record_id (row.id :: live) rest
    else new_ids record_id live rest

/-- The number of distinct ids of admissible rows that are not in `live`. -/
def new_id_count (record_id : Int) (live : List Int) (rows : List device_row) : Nat :=
  ((((rows.filter (row_admissible record_id)).map (fun row => row.id)).filter
      (fun i => decide (i ∉ live))).dedup).length

/-- Example device rows: three devices that are ready to record. -/
def ex_dev1 : device_row :=
  { id := 1, protocol := some "RTP", card_id := -1, cfg := { name := "cam1", debug_level := 0 } }

/-- Second example device, a detected V4L2 card. -/
def ex_dev2 : device_row :=
  { id := 2, protocol := some "V4L2", card_id := 0, cfg := { name := "cam2", debug_level := 0 } }

/-- Third example device. -/
def ex_dev3 : device_row :=
  { id := 3, protocol := some "RTP", card_id := -1, cfg := { name := "cam3", debug_level := 0 } }

/-- Every worker construction succeeds. -/
def ex_alloc_ok : device_row → Bool := fun _ => true

/-- Only the thread of the worker with the given id has terminated (`16` is
`EBUSY`). -/
def ex_tryjoin (id : Int) : bc_record → Int := fun bc_rec => if bc_rec.id = id then 0 else 16

/-- The live set after the first pass of the cap scenario: cap 2, no filter,
empty live set, the three example devices. -/
def ex_st_pass1 : server_state :=
  (bc_check_db 2 (-1) ex_alloc_ok (some [ex_dev1, ex_dev2, ex_dev3]) server_init).1

/-- The live set of the cap scenario after `bc_check_threads` has reaped the
worker with the given id. -/
def ex_st_reaped (id : Int) : server_state := bc_check_threads (ex_tryjoin id) ex_st_pass1

/-- The pixel pairs of two frames that differ by more than 20 gray levels. -/
def changed_pixels (ref cur : List Nat) : Nat :=
  (List.zip ref cur).countP (fun p => decide (Int.natAbs ((p.1 : Int) - (p.2 : Int)) > 20))

/-- A handle in software mode on an RTP device, holding a reference frame. -/
def soft_handle (enabled : Int) (conv : Option (Nat × Nat)) (ref : gray_frame) : bc_handle :=
  { v4l2_motion := false, type := bc_device_type.BC_DEVICE_RTP,
    motion_data := { enabled := enabled, convContext := conv, refFrame := some ref } }

/-- Example handle in hardware mode with motion detection enabled. -/
def ex_hw_handle : bc_handle :=
  { v4l2_motion := true, type := bc_device_type.BC_DEVICE_V4L2,
    motion_data := { enabled := 1, convContext := none, refFrame := none } }

/-! ## Storage table: proofs -/

theorem set_append_replicate (acc : List bc_storage) (n : Nat) (x z : bc_storage) :
    (acc ++ List.replicate (n + 1) z).set acc.length x
      = (acc ++ [x]) ++ List.replicate n z := by
  induction acc with
  | nil => simp [List.replicate_succ]
  | cons a t ih => simpa using ih

theorem bc_check_globals_rows_eq (rows : List storage_row) :
    ∀ acc : List bc_storage, acc.length ≤ MAX_STOR_LOCS →
      bc_check_globals_rows rows
          (acc ++ List.replicate (MAX_STOR_LOCS - acc.length) stor_zero) acc.length
        = if acc.length + (rows.filterMap storage_row_loc).length ≤ MAX_STOR_LOCS then
            some (acc ++ rows.filterMap storage_row_loc ++
                    List.replicate
                      (MAX_STOR_LOCS - (acc.length + (rows.filterMap storage_row_loc).length))
                      stor_zero,
                  acc.length + (rows.filterMap storage_row_loc).length)
          else none := by
  induction rows with
  | nil => intro acc h; simp [bc_check_globals_rows, h]
  | cons row rest ih =>
    intro acc h
    unfold bc_check_globals_rows
    cases hp : row.path with
    | none =>
      have hl : storage_row_loc row = none := by simp [storage_row_loc, hp]
      simp only [List.filterMap_cons, hl]
      exact ih acc h
    | some path =>
      by_cases hg : path = "" ∨ row.max_thresh ≤ 0 ∨ row.min_thresh ≤ 0
      · have hl : storage_row_loc row = none := by simp [storage_row_loc, hp, hg]
        simp only [List.filterMap_cons, hl, if_pos hg]
        exact ih acc h
      · obtain ⟨x, hx⟩ : ∃ x : bc_storage,
            x = { path := path, min_thresh := row.min_thresh, max_thresh := row.max_thresh } :=
          ⟨_, rfl⟩
        have hl : storage_row_loc row = some x := by
          simp [storage_row_loc, hp, hg, hx]
        simp only [List.filterMap_cons, hl, if_neg hg, List.length_cons, ← hx]
        by_cases hi : acc.length < MAX_STOR_LOCS
        · obtain ⟨n, hn⟩ : ∃ n, MAX_STOR_LOCS - acc.length = n + 1 :=
            ⟨MAX_STOR_LOCS - acc.length - 1, by omega⟩
          have hlen : (acc ++ [x]).length = acc.length + 1 := by simp
          have hn2 : n = MAX_STOR_LOCS - (acc ++ [x]).length := by omega
          have h2 : (acc ++ [x]).length ≤ MAX_STOR_LOCS := by omega
          rw [if_pos hi, hn, set_append_replicate, hn2, ← hlen, ih _ h2]
          simp only [List.length_append, List.length_singleton, List.append_assoc,
            List.singleton_append]
          have e : acc.length + 1 + (List.filterMap storage_row_loc rest).length
              = acc.length + ((List.filterMap storage_row_loc rest).length + 1) := by omega
          rw [e]
        · rw [if_neg hi, if_neg (by omega)]

theorem storage_row_loc_pos {row : storage_row} {s : bc_storage}
    (h : storage_row_loc row = some s) :
    s.path ≠ "" ∧ 0 < s.min_thresh ∧ 0 < s.max_thresh := by
  unfold storage_row_loc at h
  cases hp : row.path with
  | none => simp [hp] at h
  | some path =>
    simp only [hp] at h
    by_cases hg : path = "" ∨ row.max_thresh ≤ 0 ∨ row.min_thresh ≤ 0
    · simp [hg] at h
    · rw [if_neg hg] at h
      injection h with h
      subst h
      simp only [not_or, not_le] at hg
      exact ⟨hg.1, hg.2.2, hg.2.1⟩

theorem storage_valid_locs_pos (dbres : Option (List storage_row)) :
    ∀ s ∈ storage_valid_locs dbres, s.path ≠ "" ∧ 0 < s.min_thresh ∧ 0 < s.max_thresh := by
  intro s hs
  cases dbres with
  | none => simp [storage_valid_locs] at hs
  | some rows =>
    simp only [storage_valid_locs, List.mem_filterMap] at hs
    obtain ⟨row, _, hrow⟩ := hs
    exact storage_row_loc_pos hrow

theorem storage_table_locs_pos (dbres : Option (List storage_row)) :
    ∀ s ∈ storage_table_locs dbres, s.path ≠ "" ∧ 0 < s.min_thresh ∧ 0 < s.max_thresh := by
  intro s hs
  unfold storage_table_locs at hs
  split at hs
  · simp only [List.mem_singleton] at hs
    subst hs
    refine ⟨by decide, by decide, by decide⟩
  · exact storage_valid_locs_pos dbres s hs

theorem storage_table_locs_ne_nil (dbres : Option (List storage_row)) :
    storage_table_locs dbres ≠ [] := by
  unfold storage_table_locs
  split
  · simp
  · assumption

theorem bc_check_globals_eq (dbres : Option (List storage_row)) :
    bc_check_globals dbres
      = if (storage_valid_locs dbres).length ≤ MAX_STOR_LOCS then
          some (stor_table (storage_table_locs dbres))
        else none := by
  cases dbres with
  | none =>
    simp [bc_check_globals, storage_valid_locs, storage_table_locs, stor_table]
    decide
  | some rows =>
    have h := bc_check_globals_rows_eq rows [] (Nat.zero_le _)
    simp only [List.length_nil, Nat.sub_zero, List.nil_append, Nat.zero_add] at h
    have hz : media_stor_zero = List.replicate MAX_STOR_LOCS stor_zero := rfl
    simp only [bc_check_globals, storage_valid_locs, hz, h]
    by_cases hk : (rows.filterMap storage_row_loc).length ≤ MAX_STOR_LOCS
    · simp only [if_pos hk]
      by_cases h0 : rows.filterMap storage_row_loc = []
      · simp [h0, storage_table_locs, storage_valid_locs, stor_table]
        decide
      · have hne : (rows.filterMap storage_row_loc).length ≠ 0 := by
          simpa [List.length_eq_zero] using h0
        simp [hne, h0, storage_table_locs, storage_valid_locs, stor_table]
    · simp only [if_neg hk]

theorem stor_locs_stor_table (locs : List bc_storage) (h : locs.length ≤ MAX_STOR_LOCS)
    (hp : ∀ s ∈ locs, s.max_thresh ≠ 0) : stor_locs (stor_table locs) = locs := by
  unfold stor_locs stor_table
  have hlen : (locs ++ List.replicate (MAX_STOR_LOCS - locs.length) stor_zero).length
      = MAX_STOR_LOCS := by
    simp; omega
  rw [List.take_of_length_le (by omega)]
  rw [List.takeWhile_append_of_pos (by intro s hs; simpa using hp s hs)]
  cases hn : MAX_STOR_LOCS - locs.length with
  | zero => simp
  | succ n => simp [List.replicate_succ, List.takeWhile_cons, stor_zero]

/-- What `bc_check_globals` leaves in `media_stor` whenever it returns. -/
theorem bc_check_globals_some {dbres : Option (List storage_row)} {tbl : List bc_storage}
    (h : bc_check_globals dbres = some tbl) :
    (storage_valid_locs dbres).length ≤ MAX_STOR_LOCS ∧
      tbl = stor_table (storage_table_locs dbres) ∧
      stor_locs tbl = storage_table_locs dbres := by
  rw [bc_check_globals_eq] at h
  by_cases hk : (storage_valid_locs dbres).length ≤ MAX_STOR_LOCS
  · rw [if_pos hk] at h
    injection h with h
    refine ⟨hk, h.symm, ?_⟩
    rw [← h]
    apply stor_locs_stor_table
    · unfold storage_table_locs
      split
      · decide
      · exact hk
    · intro s hs
      exact ne_of_gt (storage_table_locs_pos dbres s hs).2.2
  · rw [if_neg hk] at h
    exact absurd h (by simp)

/-- C10 (amended): when at most `MAX_STOR_LOCS` rows pass the guard,
`bc_check_globals` rebuilds the table; the table then holds at least one
location, every location in it has `0 < min_thresh` and `0 < max_thresh` (the
guard checks nothing else), the locations are the valid rows in row order, and
when no row is valid the table is exactly the single default location with
`min_thresh = 90` and `max_thresh = 95`. -/
theorem bc_check_globals_table (dbres : Option (List storage_row))
    (h : (storage_valid_locs dbres).length ≤ MAX_STOR_LOCS) :
    ∃ tbl, bc_check_globals dbres = some tbl ∧
      stor_locs tbl ≠ [] ∧
      (∀ s ∈ stor_locs tbl, 0 < s.min_thresh ∧ 0 < s.max_thresh) ∧
      (storage_valid_locs dbres ≠ [] → stor_locs tbl = storage_valid_locs dbres) ∧
      (storage_valid_locs dbres = [] →
        stor_locs tbl = [stor_default] ∧ tbl = stor_table [stor_default]) := by
  have he := bc_check_globals_eq dbres
  rw [if_pos h] at he
  obtain ⟨_, htbl, hlocs⟩ := bc_check_globals_some he
  refine ⟨_, he, ?_, ?_, ?_, ?_⟩
  · rw [hlocs]; exact storage_table_locs_ne_nil dbres
  · intro s hs
    rw [hlocs] at hs
    exact (storage_table_locs_pos dbres s hs).2
  · intro hne
    rw [hlocs, storage_table_locs, if_neg hne]
  · intro hnil
    rw [hlocs]
    simp [storage_table_locs, hnil]

/-- Witness of `bc_check_globals_table` on `ex_storage_rows`. -/
theorem bc_check_globals_table_witness :
    (storage_valid_locs (some ex_storage_rows)).length ≤ MAX_STOR_LOCS ∧
    ∃ tbl, bc_check_globals (some ex_storage_rows) = some tbl ∧
      stor_locs tbl ≠ [] ∧
      (∀ s ∈ stor_locs tbl, 0 < s.min_thresh ∧ 0 < s.max_thresh) ∧
      (storage_valid_locs (some ex_storage_rows) ≠ [] →
        stor_locs tbl = storage_valid_locs (some ex_storage_rows)) ∧
      (storage_valid_locs (some ex_storage_rows) = [] →
        stor_locs tbl = [stor_default] ∧ tbl = stor_table [stor_default]) :=
  ⟨by decide, bc_check_globals_table _ (by decide)⟩

/-- C10 (counterexample): a row with `min_thresh = 95` and `max_thresh = 90` passes
the guard of `bc_check_globals` and is stored, so a stored location need not have
`min_thresh <= max_thresh`. -/
theorem bc_check_globals_stores_inverted :
    bc_check_globals (some [{ path := some "/mnt/a", max_thresh := 90, min_thresh := 95 }])
        = some (stor_table [{ path := "/mnt/a", min_thresh := 95, max_thresh := 90 }]) ∧
      ¬ (∀ s ∈ stor_locs (stor_table [{ path := "/mnt/a", min_thresh := 95, max_thresh := 90 }]),
          0 < s.min_thresh ∧ s.min_thresh ≤ s.max_thresh ∧ s.max_thresh ≤ 100) := by
  refine ⟨by decide, ?_⟩
  intro h
  have h1 := h { path := "/mnt/a", min_thresh := 95, max_thresh := 90 } (by decide)
  exact absurd h1.2.1 (by decide)

/-! ## C comparisons: proofs -/

theorem cfloat_not_le_of_lt {x y : cfloat} (h : x < y) : ¬ y ≤ x := by
  change cfloat.blt x y = true at h
  change ¬ cfloat.ble y x = true
  cases x <;> cases y <;> simp_all [cfloat.blt, cfloat.ble]

theorem cfloat_not_lt_of_le {x y : cfloat} (h : x ≤ y) : ¬ y < x := by
  change cfloat.ble x y = true at h
  change ¬ cfloat.blt y x = true
  cases x <;> cases y <;> simp_all [cfloat.blt, cfloat.ble]

theorem cfloat_le_of_not_lt {x : cfloat} {q : Rat} (hn : x ≠ cfloat.nan)
    (h : ¬ x < (q : cfloat)) : (q : cfloat) ≤ x := by
  change ¬ cfloat.blt x (cfloat.fin q) = true at h
  change cfloat.ble (cfloat.fin q) x = true
  cases x <;> simp_all [cfloat.blt, cfloat.ble]

theorem cfloat_lt_of_not_le {x : cfloat} {q : Rat} (hn : x ≠ cfloat.nan)
    (h : ¬ (q : cfloat) ≤ x) : x < (q : cfloat) := by
  change ¬ cfloat.ble (cfloat.fin q) x = true at h
  change cfloat.blt x (cfloat.fin q) = true
  cases x <;> simp_all [cfloat.blt, cfloat.ble]

theorem cfloat_coe_le_trans {p q : Rat} {x : cfloat} (h1 : p ≤ q)
    (h2 : (q : cfloat) ≤ x) : (p : cfloat) ≤ x := by
  change cfloat.ble (cfloat.fin q) x = true at h2
  change cfloat.ble (cfloat.fin p) x = true
  cases x <;> simp_all [cfloat.ble]
  exact le_trans h1 h2

theorem cfloat_eq_of_le_of_not_lt {q : Rat} {x : cfloat} (h1 : (q : cfloat) ≤ x)
    (h2 : ¬ (q : cfloat) < x) : x = (q : cfloat) := by
  change cfloat.ble (cfloat.fin q) x = true at h1
  change ¬ cfloat.blt (cfloat.fin q) x = true at h2
  cases x <;> simp_all [cfloat.blt, cfloat.ble]
  exact le_antisymm h2 h1

theorem cfloat_ne_nan_of_zero_le {x : cfloat} (h : (0 : cfloat) ≤ x) : x ≠ cfloat.nan := by
  intro hx
  subst hx
  exact absurd h (by decide)

/-! ## `bc_get_media_loc`: proofs -/

theorem storage_full_iff (statvfs : String → Option statvfs_t) (s : bc_storage) :
    storage_full statvfs s = true ↔ (s.max_thresh : cfloat) ≤ storage_used statvfs s := by
  unfold storage_full
  by_cases h : storage_used statvfs s ≥ (s.max_thresh : cfloat)
  · simp only [if_pos h, true_iff]; exact h
  · simp only [if_neg h, Bool.false_eq_true, false_iff]; exact h

theorem storage_full_eq_false_iff (statvfs : String → Option statvfs_t) (s : bc_storage) :
    storage_full statvfs s = false ↔ ¬ (s.max_thresh : cfloat) ≤ storage_used statvfs s := by
  rw [← Bool.not_eq_true, storage_full_iff]

theorem bc_get_media_loc_scan_at (statvfs : String → Option statvfs_t) :
    ∀ (locs : List bc_storage) (i : Nat) (hi : i < locs.length),
      ¬ ((locs.get ⟨i, hi⟩).max_thresh : cfloat) ≤ storage_used statvfs (locs.get ⟨i, hi⟩) →
      (∀ (j : Nat) (hj : j < locs.length), j < i →
          ((locs.get ⟨j, hj⟩).max_thresh : cfloat) ≤ storage_used statvfs (locs.get ⟨j, hj⟩)) →
      bc_get_media_loc_scan statvfs locs = (locs.get ⟨i, hi⟩).path := by
  intro locs
  induction locs with
  | nil => intro i hi; exact absurd hi (by simp)
  | cons s rest ih =>
    intro i hi hfree hfull
    cases i with
    | zero =>
      have : storage_full statvfs s = false := (storage_full_eq_false_iff _ _).2 hfree
      simp [bc_get_media_loc_scan, this]
    | succ k =>
      have h0 : storage_full statvfs s = true :=
        (storage_full_iff _ _).2 (hfull 0 (by simp) (by omega))
      have hk : k < rest.length := by simpa using hi
      have := ih k hk hfree (fun j hj hjk => hfull (j + 1) (by simpa using hj) (by omega))
      simpa [bc_get_media_loc_scan, h0] using this

theorem bc_get_media_loc_scan_full (statvfs : String → Option statvfs_t) :
    ∀ locs : List bc_storage,
      (∀ s ∈ locs, (s.max_thresh : cfloat) ≤ storage_used statvfs s) →
      bc_get_media_loc_scan statvfs locs = "" := by
  intro locs
  induction locs with
  | nil => intro _; rfl
  | cons s rest ih =>
    intro h
    have h0 : storage_full statvfs s = true := (storage_full_iff _ _).2 (h s (by simp))
    have := ih (fun t ht => h t (by simp [ht]))
    simpa [bc_get_media_loc_scan, h0] using this

/-- The lowest index of a location that fails the test of `storage_full`, when
there is one. -/
theorem exists_first_free (statvfs : String → Option statvfs_t) :
    ∀ locs : List bc_storage,
      (∃ s ∈ locs, ¬ (s.max_thresh : cfloat) ≤ storage_used statvfs s) →
      ∃ (i : Nat) (hi : i < locs.length),
        ¬ ((locs.get ⟨i, hi⟩).max_thresh : cfloat) ≤ storage_used statvfs (locs.get ⟨i, hi⟩) ∧
        ∀ (j : Nat) (hj : j < locs.length), j < i →
          ((locs.get ⟨j, hj⟩).max_thresh : cfloat)
            ≤ storage_used statvfs (locs.get ⟨j, hj⟩) := by
  intro locs
  induction locs with
  | nil => rintro ⟨s, hs, _⟩; exact absurd hs (by simp)
  | cons s rest ih =>
    rintro ⟨t, ht, hfree⟩
    by_cases h0 : (s.max_thresh : cfloat) ≤ storage_used statvfs s
    · have ht2 : t ∈ rest := by
        rcases List.mem_cons.1 ht with h | h
        · subst h; exact absurd h0 hfree
        · exact h
      obtain ⟨i, hi, hif, hij⟩ := ih ⟨t, ht2, hfree⟩
      refine ⟨i + 1, by simpa using hi, by simpa using hif, ?_⟩
      intro j hj hji
      cases j with
      | zero => simpa using h0
      | succ k => simpa using hij k (by simpa using hj) (by omega)
    · exact ⟨0, by simp, h0, fun j _ hj => absurd hj (by omega)⟩

/-- On every table that `bc_check_globals` builds and for every filesystem
answer, `bc_get_media_loc` returns the path of the lowest-index location on
which the test `storage_used(stor) >= stor->max_thresh` fails, and the path of
the location at index 0 when the test holds on every location. -/
theorem bc_get_media_loc_first_not_full (dbres : Option (List storage_row))
    (media_stor : List bc_storage) (statvfs : String → Option statvfs_t)
    (h : bc_check_globals dbres = some media_stor) :
    stor_locs media_stor ≠ [] ∧
    (∀ (i : Nat) (hi : i < (stor_locs media_stor).length),
        ¬ (((stor_locs media_stor).get ⟨i, hi⟩).max_thresh : cfloat)
            ≤ storage_used statvfs ((stor_locs media_stor).get ⟨i, hi⟩) →
        (∀ (j : Nat) (hj : j < (stor_locs media_stor).length), j < i →
          (((stor_locs media_stor).get ⟨j, hj⟩).max_thresh : cfloat)
            ≤ storage_used statvfs ((stor_locs media_stor).get ⟨j, hj⟩)) →
        bc_get_media_loc statvfs media_stor = ((stor_locs media_stor).get ⟨i, hi⟩).path) ∧
    ((∀ s ∈ stor_locs media_stor, (s.max_thresh : cfloat) ≤ storage_used statvfs s) →
        ∃ s0 rest, stor_locs media_stor = s0 :: rest ∧ media_stor.head? = some s0 ∧
          bc_get_media_loc statvfs media_stor = s0.path) ∧
    ((∃ s ∈ stor_locs media_stor, ¬ (s.max_thresh : cfloat) ≤ storage_used statvfs s) →
        ∃ s ∈ stor_locs media_stor, ¬ (s.max_thresh : cfloat) ≤ storage_used statvfs s ∧
          bc_get_media_loc statvfs media_stor = s.path) := by
  obtain ⟨_, htbl, hlocs⟩ := bc_check_globals_some h
  have hne : stor_locs media_stor ≠ [] := by
    rw [hlocs]; exact storage_table_locs_ne_nil dbres
  have hpath : ∀ s ∈ stor_locs media_stor, s.path ≠ "" := by
    intro s hs
    rw [hlocs] at hs
    exact (storage_table_locs_pos dbres s hs).1
  have hat : ∀ (i : Nat) (hi : i < (stor_locs media_stor).length),
      ¬ (((stor_locs media_stor).get ⟨i, hi⟩).max_thresh : cfloat)
          ≤ storage_used statvfs ((stor_locs media_stor).get ⟨i, hi⟩) →
      (∀ (j : Nat) (hj : j < (stor_locs media_stor).length), j < i →
        (((stor_locs media_stor).get ⟨j, hj⟩).max_thresh : cfloat)
          ≤ storage_used statvfs ((stor_locs media_stor).get ⟨j, hj⟩)) →
      bc_get_media_loc statvfs media_stor = ((stor_locs media_stor).get ⟨i, hi⟩).path := by
    intro i hi hfree hfull
    have hs := bc_get_media_loc_scan_at statvfs _ i hi hfree hfull
    have hp := hpath _ (List.get_mem (stor_locs media_stor) i hi)
    unfold bc_get_media_loc
    simp only [hs, if_neg hp]
  refine ⟨hne, hat, ?_, ?_⟩
  · intro hfull
    have hs := bc_get_media_loc_scan_full statvfs _ hfull
    cases hl : storage_table_locs dbres with
    | nil => exact absurd hl (storage_table_locs_ne_nil dbres)
    | cons s0 rest =>
      refine ⟨s0, rest, by rw [hlocs, hl], ?_, ?_⟩
      · rw [htbl, hl]; rfl
      · unfold bc_get_media_loc
        simp only [hs, if_true]
        rw [htbl, hl]; rfl
  · intro hex
    obtain ⟨i, hi, hfree, hfull⟩ := exists_first_free statvfs _ hex
    exact ⟨_, List.get_mem (stor_locs media_stor) i hi, hfree, hat i hi hfree hfull⟩

/-- Where no usage is not-a-number: on every table that `bc_check_globals`
builds, `bc_get_media_loc` returns the path of the lowest-index location whose
usage is below its `max_thresh` when there is one, and the path of the location
at index 0 when there is none. -/
theorem bc_get_media_loc_first_free (dbres : Option (List storage_row))
    (media_stor : List bc_storage) (statvfs : String → Option statvfs_t)
    (h : bc_check_globals dbres = some media_stor)
    (hnan : ∀ s ∈ stor_locs media_stor, storage_used statvfs s ≠ cfloat.nan) :
    stor_locs media_stor ≠ [] ∧
    (∀ (i : Nat) (hi : i < (stor_locs media_stor).length),
        storage_used statvfs ((stor_locs media_stor).get ⟨i, hi⟩)
          < (((stor_locs media_stor).get ⟨i, hi⟩).max_thresh : cfloat) →
        (∀ (j : Nat) (hj : j < (stor_locs media_stor).length), j < i →
          ¬ storage_used statvfs ((stor_locs media_stor).get ⟨j, hj⟩)
              < (((stor_locs media_stor).get ⟨j, hj⟩).max_thresh : cfloat)) →
        bc_get_media_loc statvfs media_stor = ((stor_locs media_stor).get ⟨i, hi⟩).path) ∧
    ((∀ s ∈ stor_locs media_stor, ¬ storage_used statvfs s < (s.max_thresh : cfloat)) →
        ∃ s0 rest, stor_locs media_stor = s0 :: rest ∧ media_stor.head? = some s0 ∧
          bc_get_media_loc statvfs media_stor = s0.path) ∧
    ((∃ s ∈ stor_locs media_stor, storage_used statvfs s < (s.max_thresh : cfloat)) →
        ∃ s ∈ stor_locs media_stor, storage_used statvfs s < (s.max_thresh : cfloat) ∧
          bc_get_media_loc statvfs media_stor = s.path) := by
  obtain ⟨hne, hat, hall, hex⟩ := bc_get_media_loc_first_not_full dbres media_stor statvfs h
  refine ⟨hne, ?_, ?_, ?_⟩
  · intro i hi hfree hfull
    exact hat i hi (cfloat_not_le_of_lt hfree) (fun j hj hji =>
      cfloat_le_of_not_lt (hnan _ (List.get_mem (stor_locs media_stor) j hj)) (hfull j hj hji))
  · intro hfull
    exact hall (fun s hs => cfloat_le_of_not_lt (hnan s hs) (hfull s hs))
  · rintro ⟨s, hs, hlt⟩
    obtain ⟨t, ht, hnf, hres⟩ := hex ⟨s, hs, cfloat_not_le_of_lt hlt⟩
    exact ⟨t, ht, cfloat_lt_of_not_le (hnan t ht) hnf, hres⟩

/-- An instance of `bc_get_media_loc_first_free`: location A is 95% full and B is
50% full. -/
theorem bc_get_media_loc_first_free_witness :
    bc_check_globals (some ex_rows_AB) = some ex_stor_AB ∧
    bc_get_media_loc ex_statvfs ex_stor_AB = "/mnt/b" ∧
    (∃ s ∈ stor_locs ex_stor_AB, storage_used ex_statvfs s < (s.max_thresh : cfloat) ∧
      bc_get_media_loc ex_statvfs ex_stor_AB = s.path) :=
  ⟨by decide, by decide!,
    (bc_get_media_loc_first_free (some ex_rows_AB) ex_stor_AB ex_statvfs (by decide)
      (by decide!)).2.2.2
      ⟨{ path := "/mnt/b", min_thresh := 70, max_thresh := 85 }, by decide, by decide!⟩⟩

/-- C1 (failing input): the table holds location A (max 90) before location B
(max 85); `statvfs` succeeds on A and reports a filesystem of zero blocks, and B
is 50% full. The usage of A is not-a-number, which is not below `max_thresh`, and
B is the lowest-index location whose usage is below its `max_thresh`; yet
`bc_get_media_loc` returns the path of A. -/
theorem bc_get_media_loc_zero_blocks :
    bc_check_globals (some ex_rows_AB) = some ex_stor_AB ∧
    stor_locs ex_stor_AB = [ex_stor_A, ex_stor_B] ∧
    storage_used ex_statvfs_zero ex_stor_A = cfloat.nan ∧
    ¬ storage_used ex_statvfs_zero ex_stor_A < (ex_stor_A.max_thresh : cfloat) ∧
    storage_used ex_statvfs_zero ex_stor_B = 50 ∧
    storage_used ex_statvfs_zero ex_stor_B < (ex_stor_B.max_thresh : cfloat) ∧
    bc_get_media_loc ex_statvfs_zero ex_stor_AB = "/mnt/a" := by
  decide!

/-! ## Eviction: proofs -/

/-- C3 (failing input): location A (min 80, max 90) is 95% full and holds three
eligible records; unlinking the oldest brings the usage to exactly 80. The loop
then stops with two eligible records left, and the alarm is raised all the same:
the usage is not below `min_thresh`, and the candidates are not exhausted, so
neither "usage below `min_thresh` and no alarm" nor "candidates exhausted and
alarm" holds. -/
theorem bc_clear_media_one_alarm_at_min :
    storage_used (ex_env.statvfs ex_world.fs) ex_stor_A = 95 ∧
    media_select ex_env.sql_like ex_stor_A.path ex_world.Media = [ex_rec1, ex_rec2, ex_rec3] ∧
    (bc_clear_media_one ex_env ex_stor_A ex_world).w.removed = [ex_rec1] ∧
    (bc_clear_media_one ex_env ex_stor_A ex_world).used = 80 ∧
    (bc_clear_media_one ex_env ex_stor_A ex_world).left = [ex_rec2, ex_rec3] ∧
    (bc_clear_media_one ex_env ex_stor_A ex_world).w.alarms = 1 ∧
    ¬ (((bc_clear_media_one ex_env ex_stor_A ex_world).used < ex_stor_A.min_thresh ∧
          (bc_clear_media_one ex_env ex_stor_A ex_world).w.alarms = 0) ∨
        ((bc_clear_media_one ex_env ex_stor_A ex_world).left = [] ∧
          (bc_clear_media_one ex_env ex_stor_A ex_world).w.alarms = 1)) := by
  decide!

theorem bc_clear_media_loop_stop {FS : Type} (env : media_env FS) (stor : bc_storage) :
    ∀ (rows : List media_row) (used : cfloat) (w : media_world FS),
      ((bc_clear_media_loop env stor rows used w).left = [] ∨
        ¬ (bc_clear_media_loop env stor rows used w).used > (stor.min_thresh : cfloat) ∨
        (bc_clear_media_loop env stor rows used w).used < 0) ∧
      (bc_clear_media_loop env stor rows used w).w.alarms = w.alarms := by
  intro rows
  induction rows with
  | nil => intro used w; simp [bc_clear_media_loop]
  | cons row rest ih =>
    intro used w
    unfold bc_clear_media_loop
    by_cases hu : used > stor.min_thresh
    · rw [if_pos hu]
      cases hf : row.filepath with
      | none => exact ih used w
      | some fp =>
        by_cases he : fp = ""
        · simp only [if_pos he]
          exact ih used w
        · simp only [if_neg he]
          split
          · rename_i hneg
            exact ⟨Or.inr (Or.inr hneg), rfl⟩
          · exact ih _ _
    · rw [if_neg hu]
      exact ⟨Or.inr (Or.inl hu), rfl⟩

/-- What `bc_clear_media_one` does on a full location with `min_thresh <=
max_thresh` when no measurement fails: either the last usage is below
`min_thresh` and no alarm is raised, or the alarm is raised with the last usage
at or above `min_thresh`, and then the candidates are exhausted or the last
usage is exactly `min_thresh`. -/
theorem bc_clear_media_one_outcome {FS : Type} (env : media_env FS) (stor : bc_storage)
    (w : media_world FS) (hmm : stor.min_thresh ≤ stor.max_thresh)
    (hfull : stor.max_thresh ≤ storage_used (env.statvfs w.fs) stor)
    (hok : 0 ≤ (bc_clear_media_one env stor w).used) :
    ((bc_clear_media_one env stor w).used < stor.min_thresh ∧
        (bc_clear_media_one env stor w).w.alarms = w.alarms) ∨
    (stor.min_thresh ≤ (bc_clear_media_one env stor w).used ∧
        (bc_clear_media_one env stor w).w.alarms = w.alarms + 1 ∧
        ((bc_clear_media_one env stor w).left = [] ∨
          (bc_clear_media_one env stor w).used = stor.min_thresh)) := by
  unfold bc_clear_media_one at hok ⊢
  simp only at hok ⊢
  rw [if_neg (cfloat_not_lt_of_le hfull)] at hok ⊢
  by_cases hnull : env.get_table_null w.Media stor.path = true
  · rw [if_pos hnull]
    exact Or.inr ⟨cfloat_coe_le_trans hmm hfull, rfl, Or.inl rfl⟩
  · rw [if_neg hnull] at hok ⊢
    obtain ⟨hstop, halarm⟩ := bc_clear_media_loop_stop env stor
      (media_select env.sql_like stor.path w.Media) (storage_used (env.statvfs w.fs) stor) w
    by_cases hneg : (bc_clear_media_loop env stor
        (media_select env.sql_like stor.path w.Media)
        (storage_used (env.statvfs w.fs) stor) w).used < 0
    · rw [if_pos hneg] at hok
      exact absurd hneg (cfloat_not_lt_of_le hok)
    · rw [if_neg hneg] at hok ⊢
      by_cases hge : (bc_clear_media_loop env stor
          (media_select env.sql_like stor.path w.Media)
          (storage_used (env.statvfs w.fs) stor) w).used ≥ stor.min_thresh
      · rw [if_pos hge]
        refine Or.inr ⟨hge, by simp [halarm], ?_⟩
        rcases hstop with h | h | h
        · exact Or.inl h
        · exact Or.inr (cfloat_eq_of_le_of_not_lt hge h)
        · exact absurd h hneg
      · rw [if_neg hge] at hok ⊢
        exact Or.inl ⟨cfloat_lt_of_not_le (cfloat_ne_nan_of_zero_le hok) hge, halarm⟩

theorem bc_record_exists_eq_none (id : Int) :
    ∀ l : List bc_record, bc_record_exists id l = none ↔ id ∉ rec_ids l := by
  intro l
  induction l with
  | nil => simp [bc_record_exists, rec_ids]
  | cons r rest ih =>
    unfold bc_record_exists
    by_cases h : r.id = id
    · simp [h, rec_ids]
    · have h2 : ¬ id = r.id := fun e => h e.symm
      simpa [h, h2, rec_ids] using ih

theorem rec_ids_update (id : Int) (row : device_row) :
    ∀ l : List bc_record, rec_ids (bc_rec_list_update id row l) = rec_ids l := by
  intro l
  induction l with
  | nil => rfl
  | cons r rest ih =>
    unfold bc_rec_list_update
    by_cases h : r.id = id
    · simp [h, rec_ids, bc_record_update_cfg]
    · simp only [rec_ids, List.map_cons, if_neg h] at ih ⊢
      rw [ih]

theorem rec_flags_update (id : Int) (row : device_row) :
    ∀ l : List bc_record, rec_flags (bc_rec_list_update id row l) = rec_flags l := by
  intro l
  induction l with
  | nil => rfl
  | cons r rest ih =>
    unfold bc_rec_list_update
    by_cases h : r.id = id
    · simp [h, rec_flags, bc_record_update_cfg]
    · simp only [rec_flags, List.map_cons, if_neg h] at ih ⊢
      rw [ih]

theorem bc_check_db_row_start {max_threads record_id : Int} {alloc_ok : device_row → Bool}
    {st : server_state} {row : device_row}
    (h : row_starts max_threads record_id alloc_ok st row) :
    bc_check_db_row max_threads record_id alloc_ok st row
      = ({ bc_rec_list := { id := row.id, cfg := row.cfg, thread_should_die := none }
                            :: st.bc_rec_list,
           cur_threads := st.cur_threads + 1 }, [row.id]) := by
  obtain ⟨hadm, hnew, hcap, hok⟩ := h
  unfold row_admissible at hadm
  unfold bc_check_db_row
  cases hp : row.protocol with
  | none => simp [hp] at hadm
  | some proto =>
    simp only [hp, Bool.and_eq_true, decide_eq_true_eq] at hadm
    obtain ⟨⟨h1, h2⟩, h3⟩ := hadm
    have he := (bc_record_exists_eq_none row.id st.bc_rec_list).2 hnew
    simp only [if_neg h1, he, if_neg h2, if_neg hcap, if_neg h3, bc_alloc_record, hok, if_true]

theorem bc_check_db_row_skip {max_threads record_id : Int} {alloc_ok : device_row → Bool}
    {st : server_state} {row : device_row}
    (h : ¬ row_starts max_threads record_id alloc_ok st row) :
    (bc_check_db_row max_threads record_id alloc_ok st row).2 = [] ∧
    rec_ids (bc_check_db_row max_threads record_id alloc_ok st row).1.bc_rec_list
      = rec_ids st.bc_rec_list ∧
    rec_flags (bc_check_db_row max_threads record_id alloc_ok st row).1.bc_rec_list
      = rec_flags st.bc_rec_list ∧
    (bc_check_db_row max_threads record_id alloc_ok st row).1.cur_threads = st.cur_threads := by
  unfold bc_check_db_row
  cases hp : row.protocol with
  | none => simp
  | some proto =>
    simp only
    by_cases h1 : row.id < 0
    · simp [h1]
    · rw [if_neg h1]
      cases he : bc_record_exists row.id st.bc_rec_list with
      | some r => simp [rec_ids_update, rec_flags_update]
      | none =>
        simp only
        by_cases h2 : record_id ≥ 0 ∧ row.id ≠ record_id
        · simp [h2]
        · rw [if_neg h2]
          by_cases hcap : max_threads ≠ 0 ∧ st.cur_threads ≥ max_threads
          · simp [hcap]
          · rw [if_neg hcap]
            by_cases h3 : proto.toLower = "V4L2".toLower ∧ row.card_id < 0
            · simp [h3]
            · rw [if_neg h3]
              by_cases hok : alloc_ok row = true
              · exfalso
                apply h
                refine ⟨?_, (bc_record_exists_eq_none _ _).1 he, hcap, hok⟩
                unfold row_admissible
                simp only [hp, Bool.and_eq_true, decide_eq_true_eq]
                exact ⟨⟨h1, h2⟩, h3⟩
              · simp [bc_alloc_record, hok]

theorem bc_check_db_row_mono (max_threads record_id : Int) (alloc_ok : device_row → Bool)
    (st : server_state) (row : device_row) :
    (∀ i ∈ rec_ids st.bc_rec_list,
        i ∈ rec_ids (bc_check_db_row max_threads record_id alloc_ok st row).1.bc_rec_list) ∧
    st.cur_threads ≤ (bc_check_db_row max_threads record_id alloc_ok st row).1.cur_threads := by
  by_cases h : row_starts max_threads record_id alloc_ok st row
  · rw [bc_check_db_row_start h]
    refine ⟨fun i hi => ?_, by simp⟩
    simp only [rec_ids, List.map_cons, List.mem_cons]
    exact Or.inr hi
  · obtain ⟨_, hids, _, hcur⟩ := bc_check_db_row_skip h
    rw [hids, hcur]
    exact ⟨fun i hi => hi, le_refl _⟩

theorem bc_check_db_rows_mono (max_threads record_id : Int) (alloc_ok : device_row → Bool) :
    ∀ (rows : List device_row) (st : server_state),
      (∀ i ∈ rec_ids st.bc_rec_list,
          i ∈ rec_ids (bc_check_db_rows max_threads record_id alloc_ok rows st).1.bc_rec_list) ∧
      st.cur_threads
        ≤ (bc_check_db_rows max_threads record_id alloc_ok rows st).1.cur_threads := by
  intro rows
  induction rows with
  | nil => intro st; exact ⟨fun i hi => hi, le_refl _⟩
  | cons row rest ih =>
    intro st
    have h1 := bc_check_db_row_mono max_threads record_id alloc_ok st row
    have h2 := ih (bc_check_db_row max_threads record_id alloc_ok st row).1
    simp only [bc_check_db_rows]
    exact ⟨fun i hi => h2.1 i (h1.1 i hi), le_trans h1.2 h2.2⟩

/-- A pass over `rows` from a state that already holds every id, and at least
the thread count, that a pass over the same rows ended with, starts nothing. -/
theorem bc_check_db_rows_fixed (max_threads record_id : Int) (alloc_ok : device_row → Bool) :
    ∀ (rows : List device_row) (s t : server_state),
      (∀ i ∈ rec_ids (bc_check_db_rows max_threads record_id alloc_ok rows s).1.bc_rec_list,
          i ∈ rec_ids t.bc_rec_list) →
      (bc_check_db_rows max_threads record_id alloc_ok rows s).1.cur_threads ≤ t.cur_threads →
      (bc_check_db_rows max_threads record_id alloc_ok rows t).2 = [] ∧
      rec_ids (bc_check_db_rows max_threads record_id alloc_ok rows t).1.bc_rec_list
        = rec_ids t.bc_rec_list ∧
      rec_flags (bc_check_db_rows max_threads record_id alloc_ok rows t).1.bc_rec_list
        = rec_flags t.bc_rec_list ∧
      (bc_check_db_rows max_threads record_id alloc_ok rows t).1.cur_threads
        = t.cur_threads := by
  intro rows
  induction rows with
  | nil => intro s t _ _; simp [bc_check_db_rows]
  | cons row rest ih =>
    intro s t hids hcur
    simp only [bc_check_db_rows] at hids hcur ⊢
    have hrow := bc_check_db_row_mono max_threads record_id alloc_ok s row
    have hrest := bc_check_db_rows_mono max_threads record_id alloc_ok rest
      (bc_check_db_row max_threads record_id alloc_ok s row).1
    have hskip : ¬ row_starts max_threads record_id alloc_ok t row := by
      rintro ⟨hadm, hnew, hcap, hok⟩
      have hs : row_starts max_threads record_id alloc_ok s row := by
        refine ⟨hadm, ?_, ?_, hok⟩
        · intro hin
          exact hnew (hids _ (hrest.1 _ (hrow.1 _ hin)))
        · rintro ⟨hm, hge⟩
          exact hcap ⟨hm, le_trans hge (le_trans hrow.2 (le_trans hrest.2 hcur))⟩
      have hin : row.id ∈ rec_ids (bc_check_db_row max_threads record_id alloc_ok s row).1.bc_rec_list := by
        rw [bc_check_db_row_start hs]
        simp [rec_ids]
      exact hnew (hids _ (hrest.1 _ hin))
    obtain ⟨h2, hi, hf, hc⟩ := bc_check_db_row_skip hskip
    have := ih (bc_check_db_row max_threads record_id alloc_ok s row).1
      (bc_check_db_row max_threads record_id alloc_ok t row).1
      (by rw [hi]; exact hids) (by rw [hc]; exact hcur)
    rw [hi, hf, hc] at this
    rw [h2]
    simpa using this

/-- C7: for every live set, every `max_threads` and `record_id`, every row list
(also `NULL`) and every construction outcome that depends on the row only, a
second `bc_check_db` pass over the same rows, run right after the first, starts
no worker, leaves the ids of `bc_rec_list` and `cur_threads` as the first pass
left them, and leaves every stop reason (`thread_should_die`) as it was. -/
theorem bc_check_db_twice_fixed_point (max_threads record_id : Int)
    (alloc_ok : device_row → Bool) (dbres : Option (List device_row)) (st : server_state) :
    (bc_check_db max_threads record_id alloc_ok dbres
        (bc_check_db max_threads record_id alloc_ok dbres st).1).2 = [] ∧
    rec_ids (bc_check_db max_threads record_id alloc_ok dbres
        (bc_check_db max_threads record_id alloc_ok dbres st).1).1.bc_rec_list
      = rec_ids (bc_check_db max_threads record_id alloc_ok dbres st).1.bc_rec_list ∧
    rec_flags (bc_check_db max_threads record_id alloc_ok dbres
        (bc_check_db max_threads record_id alloc_ok dbres st).1).1.bc_rec_list
      = rec_flags (bc_check_db max_threads record_id alloc_ok dbres st).1.bc_rec_list ∧
    (bc_check_db max_threads record_id alloc_ok dbres
        (bc_check_db max_threads record_id alloc_ok dbres st).1).1.cur_threads
      = (bc_check_db max_threads record_id alloc_ok dbres st).1.cur_threads := by
  cases dbres with
  | none => simp [bc_check_db]
  | some rows =>
    simp only [bc_check_db]
    exact bc_check_db_rows_fixed max_threads record_id alloc_ok rows st _
      (fun i hi => hi) (le_refl _)

theorem live_wf_bc_check_db_rows (max_threads record_id : Int)
    (alloc_ok : device_row → Bool) :
    ∀ (rows : List device_row) (st : server_state), live_wf st →
      live_wf (bc_check_db_rows max_threads record_id alloc_ok rows st).1 := by
  intro rows
  induction rows with
  | nil => intro st h; exact h
  | cons row rest ih =>
    intro st h
    simp only [bc_check_db_rows]
    apply ih
    by_cases hs : row_starts max_threads record_id alloc_ok st row
    · rw [bc_check_db_row_start hs]
      obtain ⟨hc, hn⟩ := h
      refine ⟨by simp [hc], ?_⟩
      simp only [rec_ids, List.map_cons, List.nodup_cons]
      exact ⟨hs.2.1, hn⟩
    · obtain ⟨_, hi, _, hc⟩ := bc_check_db_row_skip hs
      obtain ⟨hcur, hn⟩ := h
      refine ⟨?_, by rw [hi]; exact hn⟩
      have hlen := congrArg List.length hi
      simp only [rec_ids, List.length_map] at hlen
      rw [hc, hcur, hlen]

theorem bc_check_threads_loop_spec (tryjoin : bc_record → Int) :
    ∀ (l : List bc_record) (cur : Int),
      List.Sublist (bc_check_threads_loop tryjoin l cur).1 l ∧
      (bc_check_threads_loop tryjoin l cur).2
        = cur - ((l.length : Int) - ((bc_check_threads_loop tryjoin l cur).1.length : Int)) := by
  intro l
  induction l with
  | nil => intro cur; simp [bc_check_threads_loop]
  | cons r rest ih =>
    intro cur
    unfold bc_check_threads_loop
    by_cases h : tryjoin r ≠ 0
    · obtain ⟨h1, h2⟩ := ih cur
      simp only [if_pos h]
      refine ⟨h1.cons₂ r, ?_⟩
      rw [h2]
      simp only [List.length_cons]
      push_cast
      ring
    · obtain ⟨h1, h2⟩ := ih (cur - 1)
      simp only [if_neg h]
      refine ⟨h1.cons r, ?_⟩
      rw [h2]
      simp only [List.length_cons]
      push_cast
      ring

theorem bc_stop_threads_join_eq :
    ∀ (l : List bc_record) (cur : Int),
      bc_stop_threads_join l cur = ([], cur - (l.length : Int)) := by
  intro l
  induction l with
  | nil => intro cur; simp [bc_stop_threads_join]
  | cons r rest ih =>
    intro cur
    simp only [bc_stop_threads_join, ih, List.length_cons]
    push_cast
    congr 1
    ring

/-- C6: the predicate `live_wf` (`cur_threads` is the number of entries of
`bc_rec_list`, and no two entries have the same device id) holds in the initial
state and is preserved by `bc_check_db` (every row list, every outcome of worker
construction), by `bc_check_threads` (every set of terminated threads) and by
`bc_stop_threads`. -/
theorem live_wf_invariant :
    live_wf server_init ∧
    (∀ (max_threads record_id : Int) (alloc_ok : device_row → Bool)
        (dbres : Option (List device_row)) (st : server_state),
        live_wf st → live_wf (bc_check_db max_threads record_id alloc_ok dbres st).1) ∧
    (∀ (tryjoin : bc_record → Int) (st : server_state),
        live_wf st → live_wf (bc_check_threads tryjoin st)) ∧
    (∀ st : server_state, live_wf st → live_wf (bc_stop_threads st)) := by
  refine ⟨⟨rfl, List.nodup_nil⟩, ?_, ?_, ?_⟩
  · intro max_threads record_id alloc_ok dbres st h
    cases dbres with
    | none => exact h
    | some rows => exact live_wf_bc_check_db_rows max_threads record_id alloc_ok rows st h
  · intro tryjoin st h
    unfold bc_check_threads
    split
    · exact h
    · obtain ⟨hsub, hcur⟩ := bc_check_threads_loop_spec tryjoin st.bc_rec_list st.cur_threads
      obtain ⟨hc, hn⟩ := h
      refine ⟨?_, ?_⟩
      · dsimp only
        rw [hcur, hc]
        ring
      · exact List.Nodup.sublist (hsub.map _) hn
  · intro st h
    unfold bc_stop_threads
    split
    · exact h
    · simp only [bc_stop_threads_join_eq, List.length_map]
      refine ⟨?_, List.nodup_nil⟩
      simp [h.1]

theorem mem_new_ids (record_id : Int) :
    ∀ (rows : List device_row) (live : List Int) (i : Int),
      i ∈ new_ids record_id live rows ↔
        i ∉ live ∧ ∃ row ∈ rows, row_admissible record_id row = true ∧ row.id = i := by
  intro rows
  induction rows with
  | nil => intro live i; simp [new_ids]
  | cons row rest ih =>
    intro live i
    unfold new_ids
    by_cases h : row_admissible record_id row = true ∧ row.id ∉ live
    · rw [if_pos h, List.mem_cons, ih]
      constructor
      · rintro (rfl | ⟨hnl, r, hr, hadm, hid⟩)
        · exact ⟨h.2, row, by simp, h.1, rfl⟩
        · exact ⟨fun hl => hnl (List.mem_cons_of_mem _ hl), r, List.mem_cons_of_mem _ hr,
            hadm, hid⟩
      · rintro ⟨hnl, r, hr, hadm, hid⟩
        by_cases he : i = row.id
        · exact Or.inl he
        · right
          refine ⟨?_, r, ?_, hadm, hid⟩
          · intro hl
            rcases List.mem_cons.1 hl with h1 | h1
            · exact he h1
            · exact hnl h1
          · rcases List.mem_cons.1 hr with h1 | h1
            · subst h1; exact absurd hid.symm he
            · exact h1
    · rw [if_neg h, ih]
      constructor
      · rintro ⟨hnl, r, hr, hadm, hid⟩
        exact ⟨hnl, r, List.mem_cons_of_mem _ hr, hadm, hid⟩
      · rintro ⟨hnl, r, hr, hadm, hid⟩
        refine ⟨hnl, r, ?_, hadm, hid⟩
        rcases List.mem_cons.1 hr with h1 | h1
        · subst h1
          exact absurd ⟨hadm, by rw [hid]; exact hnl⟩ h
        · exact h1

theorem nodup_new_ids (record_id : Int) :
    ∀ (rows : List device_row) (live : List Int), (new_ids record_id live rows).Nodup := by
  intro rows
  induction rows with
  | nil => intro live; simp [new_ids]
  | cons row rest ih =>
    intro live
    unfold new_ids
    split
    · rw [List.nodup_cons]
      refine ⟨?_, ih _⟩
      intro hin
      exact ((mem_new_ids record_id rest _ _).1 hin).1 (List.mem_cons_self _ _)
    · exact ih live

theorem length_new_ids (record_id : Int) (rows : List device_row) (live : List Int) :
    (new_ids record_id live rows).length = new_id_count record_id live rows := by
  unfold new_id_count
  apply List.Perm.length_eq
  rw [List.perm_ext_iff_of_nodup (nodup_new_ids record_id rows live) (List.nodup_dedup _)]
  intro i
  rw [mem_new_ids, List.mem_dedup, List.mem_filter, List.mem_map]
  simp only [List.mem_filter, decide_eq_true_eq]
  constructor
  · rintro ⟨hnl, r, hr, hadm, hid⟩
    exact ⟨⟨r, ⟨hr, hadm⟩, hid⟩, hnl⟩
  · rintro ⟨⟨r, ⟨hr, hadm⟩, hid⟩, hnl⟩
    exact ⟨hnl, r, hr, hadm, hid⟩

theorem bc_check_db_rows_cap (m record_id : Int) (alloc_ok : device_row → Bool)
    (hm : 0 < m) :
    ∀ (rows : List device_row) (st : server_state),
      st.cur_threads ≤ m → (∀ row ∈ rows, alloc_ok row = true) →
      (bc_check_db_rows m record_id alloc_ok rows st).2
        = (new_ids record_id (rec_ids st.bc_rec_list) rows).take (m - st.cur_threads).toNat ∧
      (bc_check_db_rows m record_id alloc_ok rows st).1.cur_threads
        = st.cur_threads + ((bc_check_db_rows m record_id alloc_ok rows st).2.length : Int) ∧
      rec_ids (bc_check_db_rows m record_id alloc_ok rows st).1.bc_rec_list
        = (bc_check_db_rows m record_id alloc_ok rows st).2.reverse
            ++ rec_ids st.bc_rec_list := by
  intro rows
  induction rows with
  | nil => intro st _ _; simp [bc_check_db_rows, new_ids]
  | cons row rest ih =>
    intro st hcur hok
    have hok1 : alloc_ok row = true := hok row (by simp)
    have hok2 : ∀ r ∈ rest, alloc_ok r = true := fun r hr => hok r (List.mem_cons_of_mem _ hr)
    simp only [bc_check_db_rows]
    by_cases hs : row_starts m record_id alloc_ok st row
    · obtain ⟨hadm, hnew, hcap, _⟩ := hs
      have hlt : st.cur_threads < m := by
        by_contra hge
        exact hcap ⟨ne_of_gt hm, not_lt.1 hge⟩
      rw [bc_check_db_row_start ⟨hadm, hnew, hcap, hok1⟩]
      obtain ⟨h1, h2, h3⟩ := ih
        { bc_rec_list := { id := row.id, cfg := row.cfg, thread_should_die := none }
                           :: st.bc_rec_list,
          cur_threads := st.cur_threads + 1 } (by simpa using hlt) hok2
      simp only [rec_ids, List.map_cons] at h1 h3
      simp only [rec_ids] at hnew
      obtain ⟨n, hn⟩ : ∃ n : Nat, (m - st.cur_threads).toNat = n + 1 :=
        ⟨(m - st.cur_threads).toNat - 1, by omega⟩
      have hn2 : (m - (st.cur_threads + 1)).toNat = n := by omega
      refine ⟨?_, ?_, ?_⟩
      · rw [h1, hn2]
        simp only [new_ids, rec_ids, hadm, hnew, not_false_eq_true, and_self, if_true, hn,
          List.take_succ_cons, List.singleton_append]
      · rw [h2]
        simp only [List.singleton_append, List.length_cons]
        push_cast
        ring
      · simp only [rec_ids]
        rw [h3]
        simp
    · obtain ⟨h2, hi, _, hc⟩ := bc_check_db_row_skip hs
      obtain ⟨g1, g2, g3⟩ := ih (bc_check_db_row m record_id alloc_ok st row).1
        (by rw [hc]; exact hcur) hok2
      rw [hi, hc] at g1
      rw [hc] at g2
      rw [hi] at g3
      refine ⟨?_, by rw [h2]; simpa using g2, by rw [h2]; simpa using g3⟩
      rw [h2, List.nil_append, g1]
      by_cases ha : row_admissible record_id row = true ∧ row.id ∉ rec_ids st.bc_rec_list
      · have hcap : m ≠ 0 ∧ st.cur_threads ≥ m := by
          by_contra hcap
          exact hs ⟨ha.1, ha.2, hcap, hok1⟩
        have hz : (m - st.cur_threads).toNat = 0 := by omega
        simp [hz]
      · simp only [new_ids, if_neg ha]

/-- C5 (amended): with a cap `m > 0`, `cur_threads <= m` and every worker
construction succeeding, one `bc_check_db` pass starts exactly
`min(k, m - cur_threads)` workers, `k` being the number of distinct admissible
ids not in the live set; they are the first ones in row order, they are added to
the live set, and `cur_threads <= m` holds afterwards. In particular with cap 2,
an empty live set and three admissible devices the pass starts devices 1 and 2.
After `bc_check_threads` has reaped worker 1, a pass over a row list without
device 1 starts device 3, and a pass over the unchanged row list starts device 1
again. -/
theorem bc_check_db_cap (m record_id : Int) (alloc_ok : device_row → Bool)
    (rows : List device_row) (st : server_state)
    (hm : 0 < m) (hcur : st.cur_threads ≤ m) (hok : ∀ row ∈ rows, alloc_ok row = true) :
    ((bc_check_db m record_id alloc_ok (some rows) st).2
        = (new_ids record_id (rec_ids st.bc_rec_list) rows).take (m - st.cur_threads).toNat ∧
      (((bc_check_db m record_id alloc_ok (some rows) st).2.length : Nat) : Int)
        = min ((new_id_count record_id (rec_ids st.bc_rec_list) rows : Nat) : Int)
            (m - st.cur_threads) ∧
      rec_ids (bc_check_db m record_id alloc_ok (some rows) st).1.bc_rec_list
        = (bc_check_db m record_id alloc_ok (some rows) st).2.reverse
            ++ rec_ids st.bc_rec_list ∧
      (bc_check_db m record_id alloc_ok (some rows) st).1.cur_threads
        = st.cur_threads + ((bc_check_db m record_id alloc_ok (some rows) st).2.length : Int) ∧
      (bc_check_db m record_id alloc_ok (some rows) st).1.cur_threads ≤ m) ∧
    ((bc_check_db 2 (-1) ex_alloc_ok (some [ex_dev1, ex_dev2, ex_dev3]) server_init).2 = [1, 2] ∧
      rec_ids (ex_st_reaped 1).bc_rec_list = [2] ∧ (ex_st_reaped 1).cur_threads = 1 ∧
      (bc_check_db 2 (-1) ex_alloc_ok (some [ex_dev2, ex_dev3]) (ex_st_reaped 1)).2 = [3] ∧
      (bc_check_db 2 (-1) ex_alloc_ok (some [ex_dev1, ex_dev2, ex_dev3]) (ex_st_reaped 1)).2
        = [1]) := by
  refine ⟨?_, by decide!⟩
  obtain ⟨h1, h2, h3⟩ := bc_check_db_rows_cap m record_id alloc_ok hm rows st hcur hok
  simp only [bc_check_db]
  have hlen : (((bc_check_db_rows m record_id alloc_ok rows st).2.length : Nat) : Int)
      = min ((new_id_count record_id (rec_ids st.bc_rec_list) rows : Nat) : Int)
          (m - st.cur_threads) := by
    rw [h1, List.length_take, length_new_ids]
    have hnn : 0 ≤ m - st.cur_threads := by omega
    rw [min_comm]
    push_cast
    rw [Int.toNat_of_nonneg hnn]
  refine ⟨h1, hlen, h3, h2, ?_⟩
  rw [h2, hlen]
  have := min_le_right ((new_id_count record_id (rec_ids st.bc_rec_list) rows : Nat) : Int)
    (m - st.cur_threads)
  omega

/-- Witness of `bc_check_db_cap`: cap 2, one worker live (device 2 after worker 1
was reaped), the three example rows. -/
theorem bc_check_db_cap_witness :
    (0 : Int) < 2 ∧ (ex_st_reaped 1).cur_threads ≤ 2 ∧
    (bc_check_db 2 (-1) ex_alloc_ok (some [ex_dev1, ex_dev2, ex_dev3]) (ex_st_reaped 1)).2
      = (new_ids (-1) (rec_ids (ex_st_reaped 1).bc_rec_list)
          [ex_dev1, ex_dev2, ex_dev3]).take (2 - (ex_st_reaped 1).cur_threads).toNat ∧
    (bc_check_db 2 (-1) ex_alloc_ok (some [ex_dev1, ex_dev2, ex_dev3])
      (ex_st_reaped 1)).1.cur_threads ≤ 2 :=
  ⟨by decide, by decide!,
    (bc_check_db_cap 2 (-1) ex_alloc_ok [ex_dev1, ex_dev2, ex_dev3] (ex_st_reaped 1)
      (by decide) (by decide!) (fun _ _ => rfl)).1.1,
    (bc_check_db_cap 2 (-1) ex_alloc_ok [ex_dev1, ex_dev2, ex_dev3] (ex_st_reaped 1)
      (by decide) (by decide!) (fun _ _ => rfl)).1.2.2.2.2⟩

/-- C5 (counterexample): cap 2, empty live set, three admissible devices. The
first pass starts devices 1 and 2. Whichever of the two workers
`bc_check_threads` reaps, the next pass over the same rows starts that device
again, and device 3 is still not in the live set. -/
theorem bc_check_db_third_still_pending :
    (bc_check_db 2 (-1) ex_alloc_ok (some [ex_dev1, ex_dev2, ex_dev3]) server_init).2 = [1, 2] ∧
    rec_ids (ex_st_reaped 1).bc_rec_list = [2] ∧
    (bc_check_db 2 (-1) ex_alloc_ok (some [ex_dev1, ex_dev2, ex_dev3]) (ex_st_reaped 1)).2
      = [1] ∧
    (3 : Int) ∉ rec_ids (bc_check_db 2 (-1) ex_alloc_ok (some [ex_dev1, ex_dev2, ex_dev3])
      (ex_st_reaped 1)).1.bc_rec_list ∧
    rec_ids (ex_st_reaped 2).bc_rec_list = [1] ∧
    (bc_check_db 2 (-1) ex_alloc_ok (some [ex_dev1, ex_dev2, ex_dev3]) (ex_st_reaped 2)).2
      = [2] ∧
    (3 : Int) ∉ rec_ids (bc_check_db 2 (-1) ex_alloc_ok (some [ex_dev1, ex_dev2, ex_dev3])
      (ex_st_reaped 2)).1.bc_rec_list := by
  decide!

/-! ## Motion detector: proofs -/

theorem motion_changed_eq :
    ∀ (n : Nat) (ref cur : List Nat), ref.length = n → cur.length = n →
      motion_changed n ref cur = some (changed_pixels ref cur) := by
  intro n
  induction n with
  | zero =>
    intro ref cur hr hc
    rw [List.length_eq_zero] at hr hc
    subst hr hc
    simp [motion_changed, changed_pixels]
  | succ k ih =>
    intro ref cur hr hc
    cases ref with
    | nil => simp at hr
    | cons r rs =>
      cases cur with
      | nil => simp at hc
      | cons c cs =>
        have h := ih rs cs (by simpa using hr) (by simpa using hc)
        simp only [motion_changed, h, changed_pixels, List.zip_cons_cons, List.countP_cons]
        by_cases hd : Int.natAbs ((r : Int) - (c : Int)) > 20
        · simp [hd]
        · simp [hd]

/-- C8 (amended): a software-mode call on an RTP device with motion enabled, a
reference frame held and a decoded picture, both frames of `w * h` pixels,
returns; it reports motion if and only if the number of pixels that differ by
more than 20, counted over exactly the `w * h` pixels, is at least `h * w / 6`
in integer division, that is if and only if `w * h < 6 * (changed + 1)`; when 6
divides `w * h` this is `6 * changed >= w * h`. The current frame becomes the
reference and the flag `enabled` is kept. -/
theorem bc_motion_is_detected_threshold (w h : Nat) (ref cur : List Nat) (ref_linesize : Nat)
    (enabled r : Int) (conv : Option (Nat × Nat)) (vb : Option v4l2_buffer)
    (hen : enabled ≠ 0) (hr : 0 < r)
    (href : ref.length = w * h) (hcur : cur.length = w * h) :
    ∃ ret : Int,
      bc_motion_is_detected vb
          { r := r, width := w, height := h, frame := { data := cur, linesize := w } }
          (soft_handle enabled conv { data := ref, linesize := ref_linesize })
        = some (ret, soft_handle enabled (some (w, h)) { data := cur, linesize := w }) ∧
      (ret = 1 ∨ ret = 0) ∧
      (ret = 1 ↔ h * w / 6 ≤ changed_pixels ref cur) ∧
      (ret = 1 ↔ w * h < 6 * (changed_pixels ref cur + 1)) ∧
      (6 ∣ w * h → (ret = 1 ↔ w * h ≤ 6 * changed_pixels ref cur)) := by
  have hon : bc_motion_is_on vb
      (soft_handle enabled conv { data := ref, linesize := ref_linesize }) ≠ 0 := by
    simp [bc_motion_is_on, soft_handle, hen]
  have hch := motion_changed_eq (w * h) ref cur href hcur
  have hr1 : ¬ r < 0 := by omega
  have hr2 : ¬ r = 0 := by omega
  by_cases hge : h * w / 6 ≤ changed_pixels ref cur
  · refine ⟨1, ?_, Or.inl rfl, ?_, ?_, ?_⟩
    · unfold bc_motion_is_detected
      rw [if_neg hon]
      simp [soft_handle, hr1, hr2, hch, hge]
    · simp [hge]
    · simp only [true_iff]
      have := Nat.lt_succ_iff.2 hge
      have h2 := (Nat.div_lt_iff_lt_mul (by norm_num : 0 < 6)).1 this
      rw [Nat.mul_comm w h]
      omega
    · intro hdvd
      simp only [true_iff]
      obtain ⟨k, hk⟩ := hdvd
      rw [Nat.mul_comm h w, hk] at hge
      rw [hk]
      omega
  · refine ⟨0, ?_, Or.inr rfl, ?_, ?_, ?_⟩
    · unfold bc_motion_is_detected
      rw [if_neg hon]
      simp [soft_handle, hr1, hr2, hch, hge]
    · simp [hge]
    · simp only [zero_ne_one, false_iff, not_lt]
      have h2 : changed_pixels ref cur + 1 ≤ h * w / 6 := by omega
      have h3 := (Nat.le_div_iff_mul_le (by norm_num : 0 < 6)).1 h2
      rw [Nat.mul_comm w h]
      omega
    · intro hdvd
      simp only [zero_ne_one, false_iff, not_le]
      obtain ⟨k, hk⟩ := hdvd
      rw [Nat.mul_comm h w, hk] at hge
      rw [hk]
      omega

/-- Witness of `bc_motion_is_detected_threshold`: a 3 x 2 frame with one changed
pixel. -/
theorem bc_motion_is_detected_threshold_witness :
    (1 : Int) ≠ 0 ∧ (0 : Int) < 1 ∧
    ∃ ret : Int,
      bc_motion_is_detected none
          { r := 1, width := 3, height := 2,
            frame := { data := [90, 0, 0, 0, 0, 0], linesize := 3 } }
          (soft_handle 1 none { data := [0, 0, 0, 0, 0, 0], linesize := 3 })
        = some (ret, soft_handle 1 (some (3, 2))
            { data := [90, 0, 0, 0, 0, 0], linesize := 3 }) ∧
      (ret = 1 ∨ ret = 0) ∧
      (ret = 1 ↔ 2 * 3 / 6 ≤ changed_pixels [0, 0, 0, 0, 0, 0] [90, 0, 0, 0, 0, 0]) ∧
      (ret = 1 ↔ 3 * 2 < 6 * (changed_pixels [0, 0, 0, 0, 0, 0] [90, 0, 0, 0, 0, 0] + 1)) ∧
      (6 ∣ 3 * 2 →
        (ret = 1 ↔ 3 * 2 ≤ 6 * changed_pixels [0, 0, 0, 0, 0, 0] [90, 0, 0, 0, 0, 0])) :=
  ⟨by decide, by decide,
    bc_motion_is_detected_threshold 3 2 [0, 0, 0, 0, 0, 0] [90, 0, 0, 0, 0, 0] 3 1 1 none none
      (by decide) (by decide) (by decide) (by decide)⟩

/-- C8 (counterexample): on a 7 x 1 frame with one changed pixel the call reports
motion although `6 * 1 < 7`; on a 2 x 2 frame equal to the reference it reports
motion with no changed pixel at all. -/
theorem bc_motion_is_detected_below_sixth :
    changed_pixels [0, 0, 0, 0, 0, 0, 0] [90, 0, 0, 0, 0, 0, 0] = 1 ∧
    (bc_motion_is_detected none
        { r := 1, width := 7, height := 1,
          frame := { data := [90, 0, 0, 0, 0, 0, 0], linesize := 7 } }
        (soft_handle 1 none { data := [0, 0, 0, 0, 0, 0, 0], linesize := 7 })).map Prod.fst
      = some 1 ∧
    ¬ (6 * changed_pixels [0, 0, 0, 0, 0, 0, 0] [90, 0, 0, 0, 0, 0, 0] ≥ 7 * 1) ∧
    changed_pixels [5, 5, 5, 5] [5, 5, 5, 5] = 0 ∧
    (bc_motion_is_detected none
        { r := 1, width := 2, height := 2, frame := { data := [5, 5, 5, 5], linesize := 2 } }
        (soft_handle 1 none { data := [5, 5, 5, 5], linesize := 2 })).map Prod.fst
      = some 1 ∧
    ¬ (6 * changed_pixels [5, 5, 5, 5] [5, 5, 5, 5] ≥ 2 * 2) := by
  decide

/-- C9 (amended): `bc_set_motion` returns 0 in software mode and the result of
the device control call in hardware mode; when it returns 0 the flag
`motion_data.enabled` equals the requested value; when it returns an error the
handle, flag included, is unchanged; and after a `bc_set_motion(bc, 0)` that
returned 0, `bc_motion_is_on` and `bc_motion_is_detected` both return 0 and leave
the handle alone. -/
theorem bc_set_motion_flag (ioctl_ret : Int) (bc : bc_handle) (on_ : Int) :
    (bc.v4l2_motion = false → (bc_set_motion ioctl_ret bc on_).1 = 0) ∧
    (bc.v4l2_motion = true → (bc_set_motion ioctl_ret bc on_).1 = ioctl_ret) ∧
    ((bc_set_motion ioctl_ret bc on_).1 = 0 →
      (bc_set_motion ioctl_ret bc on_).2.motion_data.enabled = on_) ∧
    ((bc_set_motion ioctl_ret bc on_).1 ≠ 0 → (bc_set_motion ioctl_ret bc on_).2 = bc) ∧
    ((bc_set_motion ioctl_ret bc 0).1 = 0 →
      ∀ (vb : Option v4l2_buffer) (dec : decoded_video),
        bc_motion_is_on vb (bc_set_motion ioctl_ret bc 0).2 = 0 ∧
        bc_motion_is_detected vb dec (bc_set_motion ioctl_ret bc 0).2
          = some (0, (bc_set_motion ioctl_ret bc 0).2)) := by
  have key : ∀ on0 : Int, (bc_set_motion ioctl_ret bc on0).1 = 0 →
      (bc_set_motion ioctl_ret bc on0).2.motion_data.enabled = on0 := by
    intro on0 h
    by_cases hhw : bc.v4l2_motion = true <;> by_cases hi : ioctl_ret = 0 <;>
      by_cases h0 : on0 = 0 <;> simp [bc_set_motion, hhw, hi, h0] at h ⊢
  refine ⟨?_, ?_, key on_, ?_, ?_⟩
  · intro hsw
    by_cases h0 : on_ = 0 <;> simp [bc_set_motion, hsw, h0]
  · intro hhw
    by_cases h0 : ioctl_ret = 0 <;> simp [bc_set_motion, hhw, h0]
  · intro hne
    by_cases hhw : bc.v4l2_motion = true <;> by_cases hi : ioctl_ret = 0 <;>
      by_cases h0 : on_ = 0 <;> simp [bc_set_motion, hhw, hi, h0] at hne ⊢
  · intro h vb dec
    have hen := key 0 h
    have hon : bc_motion_is_on vb (bc_set_motion ioctl_ret bc 0).2 = 0 := by
      simp [bc_motion_is_on, hen]
    exact ⟨hon, by simp [bc_motion_is_detected, hon]⟩

/-- C9 (counterexample): in hardware mode with motion enabled, a
`bc_set_motion(bc, 0)` whose device control call fails with -1 returns -1 and
leaves `enabled` at 1; `bc_motion_is_on` and `bc_motion_is_detected` then still
return 1 when the buffer carries the motion flags. -/
theorem bc_set_motion_failed_ioctl_keeps_flag :
    (bc_set_motion (-1) ex_hw_handle 0).1 = -1 ∧
    (bc_set_motion (-1) ex_hw_handle 0).2.motion_data.enabled = 1 ∧
    bc_motion_is_on (some { motion_on := true, motion_detected := true })
      (bc_set_motion (-1) ex_hw_handle 0).2 = 1 ∧
    (bc_motion_is_detected (some { motion_on := true, motion_detected := true })
        { r := 0, width := 0, height := 0, frame := { data := [], linesize := 0 } }
        (bc_set_motion (-1) ex_hw_handle 0).2).map Prod.fst = some 1 := by
  decide

end Bluecherry
